import Mathlib

/-!
# mumoshu/division: resource store lookups and the gateway controller

A shallow embedding of `dynamodb/get.go` (`getCRDs`, `exprAndArgs`, `get`, `GetSync`,
`GetAsync`, `streamedResources`) and of `cmd/server.go` (gateway startup, the deployment
and release cases of the event loop and `gateway.handleInstall`), followed by the
properties proved about them.

Conventions of the embedding:

* a Go `interface{}` value held in `Resource.Spec` is a `Value`; `Value.null` is the
  nil interface, which is also what indexing a map at an absent key yields.  Only
  scalar dynamic types (string, bool) are modelled, so `==` on two values never
  meets an uncomparable dynamic type;
* a Go `error` is an `Option`: `none` is `nil`;
* a Go `panic` is the status `Status.panic`; the effects performed before it stay in
  the trace;
* every call that leaves the process (store lookups and writes, the log sink, the
  job runner, the send on `newInstalls`) is appended to `World.trace` at the moment
  the call is made.
-/

set_option autoImplicit false

namespace Division

/-! ## Resource model (`api.Resource`) -/

/-- A dynamically typed value stored under a key of `Resource.Spec`. -/
inductive Value where
  | null
  | str (s : String)
  | bool (b : Bool)
  deriving DecidableEq, Repr

/-- The Go type `map[string]interface{}` as an association list with distinct keys. -/
abbrev Spec := List (String × Value)

/-- The Go expression `m[k]`: the value stored at `k`, or the nil interface. -/
def Spec.get (m : Spec) (k : String) : Value :=
  match m.lookup k with
  | some v => v
  | none => Value.null

/-- The Go statement `m[k] = v`: overwrite in place when the key is present,
otherwise add the entry. -/
def Spec.set : Spec → String → Value → Spec
  | [], k, v => [(k, v)]
  | (k0, v0) :: rest, k, v =>
    if k0 = k then (k, v) :: rest else (k0, v0) :: Spec.set rest k v

/-- The type `api.Metadata`. -/
structure Metadata where
  Name : String
  Labels : List (String × String) := []
  deriving DecidableEq, Repr

/-- The type `api.Resource`. -/
structure Resource where
  NameHashKey : String
  Metadata : Metadata
  Kind : String
  Spec : Spec
  deriving DecidableEq, Repr

/-- What the verb `%s` of `fmt.Sprintf` prints for an `interface{}` operand. -/
def fmtS : Value → String
  | Value.null => "%!s(<nil>)"
  | Value.str s => s
  | Value.bool true => "%!s(bool=true)"
  | Value.bool false => "%!s(bool=false)"

/-- The Go type assertion `v.(string)`; `none` is the run-time panic it raises on
any other dynamic type. -/
def Value.asString : Value → Option String
  | Value.str s => some s
  | _ => none

/-! ## Errors -/

/-- A Go `error` value as the gateway distinguishes them in its type switches. -/
inductive GoError where
  /-- The type `*dynamodb.ErrResourceNotFound`, with its `msg`. -/
  | resourceNotFound (msg : String)
  /-- Any other error value. -/
  | other (msg : String)
  deriving DecidableEq, Repr

/-- The method `Error()`. -/
def GoError.Error : GoError → String
  | GoError.resourceNotFound msg => msg
  | GoError.other msg => msg

/-- An error returned by the backend client: either one implementing
`awserr.Error` (with its `Code()`), or any other error. -/
inductive BackendError where
  | awserr (code : String) (message : String)
  | plain (message : String)
  deriving DecidableEq, Repr

/-- The constant `dynamodb.ErrCodeResourceNotFoundException` of the AWS SDK. -/
def ErrCodeResourceNotFoundException : String := "ResourceNotFoundException"

/-- The constant `dynamodb.ErrCodeProvisionedThroughputExceededException`. -/
def ErrCodeProvisionedThroughputExceededException : String :=
  "ProvisionedThroughputExceededException"

/-- The constant `dynamodb.ErrCodeLimitExceededException`. -/
def ErrCodeLimitExceededException : String := "LimitExceededException"

/-! ## `dynamodb/dynamodb.go`: table routing -/

/-- The constant `HashKeyName`. -/
def HashKeyName : String := "name_hash_key"

/-- The fields of `dynamoResourceDB` that table routing reads, together with the two
package constants `databasePrefix` and `crdName`, which are declared in another file of
the package and are therefore parameters. -/
structure DynamoResourceDB where
  databasePrefix : String
  crdName : String
  databaseName : String
  namespaceName : String
  deriving DecidableEq, Repr

/-- The function `globalTableName`. -/
def globalTableName (databasePrefix database resource : String) : String :=
  databasePrefix ++ database ++ "-" ++ resource

/-- The method `tablePrefix`. -/
def DynamoResourceDB.tablePrefix (p : DynamoResourceDB) : String :=
  p.databasePrefix ++ p.databaseName

/-- The method `namespacedTableName`. -/
def DynamoResourceDB.namespacedTableName (p : DynamoResourceDB) (resource : String) : String :=
  p.tablePrefix ++ "-" ++ p.namespaceName ++ "-" ++ resource

/-- The method `tableNameForResourceNamed`. -/
def DynamoResourceDB.tableNameForResourceNamed (p : DynamoResourceDB) (resource : String) :
    String :=
  if resource = p.crdName then globalTableName p.databasePrefix p.databaseName resource
  else p.namespacedTableName resource

/-! ## `dynamodb/get.go`: selectors -/

/-- The call `strings.Split(s, "=")` on the characters of `s`: the pieces between
consecutive `=` signs (always at least one piece). -/
def splitEq : List Char → List (List Char)
  | [] => [[]]
  | c :: cs =>
    if c = '=' then [] :: splitEq cs
    else
      match splitEq cs with
      | [] => [[c]]
      | h :: t => (c :: h) :: t

/-- One iteration of the loop of `exprAndArgs`: the key, the value and the condition of
a selector; `none` is the index-out-of-range panic of `kv[1]` when the selector has no
`=`. -/
def selectorCond (selector : String) : Option (String × String × String) :=
  match splitEq selector.data with
  | k :: v :: _ =>
    if k.getLast? = some '!' then
      some (String.mk k.dropLast, String.mk v, "\x27metadata\x27.\x27labels\x27.$ " ++ "!=" ++ " ?")
    else
      some (String.mk k, String.mk v, "\x27metadata\x27.\x27labels\x27.$ " ++ "=" ++ " ?")
  | _ => none

/-- The loop of `exprAndArgs`: the conditions and the arguments accumulated so far. -/
def exprAndArgsLoop : List String → List String → List String →
    Option (List String × List String)
  | [], conds, args => some (conds, args)
  | selector :: rest, conds, args =>
    match selectorCond selector with
    | none => none
    | some (k, v, cond) => exprAndArgsLoop rest (conds ++ [cond]) (args ++ [k, v])

/-- The function `exprAndArgs`: the filter expression and its arguments; `none` is the
run-time panic on a selector without `=`. -/
def exprAndArgs (selectors : List String) : Option (String × List String) :=
  match exprAndArgsLoop selectors [] [] with
  | none => none
  | some (conds, args) => some (String.intercalate "AND" conds, args)

/-! ## `dynamodb/get.go`: `get` and `GetSync` -/

/-- A request sent to the backend table client by `get`: a key lookup
(`Get(HashKeyName, name)`) or a `Scan()`, with the optional `Filter(expr, args...)`. -/
inductive Query where
  | get (table : String) (hashKey : String) (name : String)
      (filter : Option (String × List String))
  | scan (table : String) (filter : Option (String × List String))
  deriving DecidableEq, Repr

/-- What `All(&resources)` leaves behind: the decoded rows and the error. -/
structure Response where
  rows : List Resource
  err : Option BackendError
  deriving DecidableEq, Repr

/-- The pair returned by `get` and by `GetSync`. -/
structure GetResult where
  resources : List Resource
  err : Option GoError
  deriving DecidableEq, Repr

/-- The request that `get` builds (lines 66 to 83); `none` is the panic of
`exprAndArgs`. -/
def getQuery (p : DynamoResourceDB) (resource name : String) (selectors : List String) :
    Option Query :=
  if name ≠ "" then
    if selectors.length > 0 then
      match exprAndArgs selectors with
      | none => none
      | some ea => some (Query.get (p.tableNameForResourceNamed resource) HashKeyName name (some ea))
    else
      some (Query.get (p.tableNameForResourceNamed resource) HashKeyName name none)
  else
    if selectors.length > 0 then
      match exprAndArgs selectors with
      | none => none
      | some ea => some (Query.scan (p.tableNameForResourceNamed resource) (some ea))
    else
      some (Query.scan (p.tableNameForResourceNamed resource) none)

/-- The message of line 87. -/
def msgItemNotFound (p : DynamoResourceDB) (resource name : String) : String :=
  resource ++ " \"" ++ name ++ "\" not found: dynamodb table named \"" ++
    p.tableNameForResourceNamed resource ++ "\" exists, but no item named \"" ++ name ++
    "\" found"

/-- The message of line 90, which is written to standard error only. -/
def msgNoneFound (p : DynamoResourceDB) (resource name : String) : String :=
  "no " ++ resource ++ " found: dynamodb table named \"" ++
    p.tableNameForResourceNamed resource ++ "\" exists, but no item named \"" ++ name ++
    "\" found"

/-- The message of line 96. -/
def msgTableNotFound (p : DynamoResourceDB) (resource name : String) : String :=
  resource ++ " \"" ++ name ++ "\" not found: no dynamodb table named \"" ++
    p.tableNameForResourceNamed resource ++ "\" exists. create it by \"div apply -f your-new-" ++
    resource ++ "." ++ resource ++ ".yaml\""

/-- Lines 84 to 103 of `get`: what is returned for the rows and the error that the
backend left behind. -/
def getReturn (p : DynamoResourceDB) (resource name : String) (resp : Response) : GetResult :=
  if resp.err = none ∧ resp.rows.length = 0 then
    if name ≠ "" then
      { resources := [], err := some (GoError.resourceNotFound (msgItemNotFound p resource name)) }
    else
      { resources := resp.rows, err := none }
  else
    match resp.err with
    | some (BackendError.awserr code _) =>
      if code = ErrCodeResourceNotFoundException then
        if name ≠ "" then
          { resources := [],
            err := some (GoError.resourceNotFound (msgTableNotFound p resource name)) }
        else
          { resources := resp.rows, err := none }
      else
        { resources := resp.rows, err := none }
    | _ => { resources := resp.rows, err := none }

/-- The method `get`, run against a backend that answers each request; `none` is the
panic of `exprAndArgs`, raised before any request is sent. -/
def get (p : DynamoResourceDB) (backend : Query → Response) (resource name : String)
    (selectors : List String) : Option GetResult :=
  match getQuery p resource name selectors with
  | none => none
  | some q => some (getReturn p resource name (backend q))

/-- The method `GetSync`: it drains `GetAsync(resource, name, selectors, false)`, whose
worker sends the error of `get` and stops, or else sends every resource of `get` in
order and closes both channels. -/
def GetSync (p : DynamoResourceDB) (backend : Query → Response) (resource name : String)
    (selectors : List String) : Option GetResult :=
  match get p backend resource name selectors with
  | none => none
  | some r =>
    match r.err with
    | some e => some { resources := [], err := some e }
    | none => some { resources := r.resources, err := none }

/-! ## The store as the gateway sees it -/

/-- The two methods of the interface `dynamodb.Store` that the gateway calls, over a
store state `σ`.  `GetSync` yields `none` when the call panics; `Apply` yields its
error and the store it leaves behind. -/
structure Store (σ : Type) where
  GetSync : σ → String → String → List String → Option GetResult
  Apply : σ → Resource → Option GoError × σ

/-- The arguments of `script.(*DelegatedRunner).SendScript`, in call order. -/
structure ScriptCall where
  project : String
  script : String
  event : String
  commitish : String
  commit : String
  payload : String
  logLevel : String
  deriving DecidableEq, Repr

/-- The execution collaborators of `handleInstall`: for each call, the error it
returns (`none` for success). -/
structure Adapters where
  logsWriter : String → String → Option GoError
  newDelegatedRunner : String → Option GoError
  sendScript : ScriptCall → Option GoError

/-- A call that leaves the gateway goroutine, as recorded in the trace. -/
inductive Effect where
  | getSync (resource : String) (name : String) (selectors : List String)
  | apply (r : Resource)
  | push (r : Resource)
  | logsWriter (resource : String) (name : String)
  | newDelegatedRunner (ns : String)
  | sendScript (call : ScriptCall)
  deriving DecidableEq, Repr

/-- How a handler invocation ends: it returns to the `select`, it panics (the
process terminates), or it stays blocked forever in a channel send. -/
inductive Status where
  | returned
  | panic (msg : String)
  | blocked
  deriving DecidableEq, Repr

/-- The state the event loop works on: the store, the buffer of the channel
`newInstalls`, and the calls made so far (oldest first). -/
structure World (σ : Type) where
  db : σ
  newInstalls : List Resource
  trace : List Effect

/-- The outcome of running a handler. -/
structure Run (σ : Type) where
  world : World σ
  status : Status

/-- Append a call to the trace. -/
def World.record {σ : Type} (w : World σ) (e : Effect) : World σ :=
  { w with trace := w.trace ++ [e] }

/-- The fields of the struct `gateway` that the handlers read, the two maps as
association lists. -/
structure Gateway where
  targetedProjects : List (String × Resource)
  targetedApps : List (String × Resource)
  clusterName : String
  env : String

/-- The Go idiom `_, ok := m[k]`. -/
def hasKey (m : List (String × Resource)) (k : String) : Bool :=
  (m.lookup k).isSome

/-- The capacity given to `make(chan *api.Resource, 1)`. -/
def newInstallsCapacity : Nat := 1

/-- The panic raised by a failed type assertion to `string`.  The text stands for the
one of the Go runtime, which also names the dynamic type it found (`is nil, not string`,
`is bool, not string`); nothing below depends on the wording. -/
def assertionPanic : String := "interface conversion: interface \x7b\x7d is not string"

/-! ## `cmd/server.go`: the deployment case -/

/-- The literal `newRelease` of lines 160 to 172. -/
def newRelease (releaseName deployProj deployApp : String) (sha1 : Value)
    (clusterName : String) : Resource :=
  { NameHashKey := releaseName
    Metadata := { Name := releaseName }
    Kind := "Release"
    Spec := [("project", Value.str deployProj), ("app", Value.str deployApp),
             ("sha1", sha1), ("cluster", Value.str clusterName)] }

/-- The condition of line 159: `len(rs) == 0 || rs[0].Spec["sha1"] != sha1`. -/
def releaseOutdated (rs : List Resource) (sha1 : Value) : Bool :=
  match rs with
  | [] => true
  | r0 :: _ => decide (r0.Spec.get "sha1" ≠ sha1)

/-- The body of `case d := <-deploys` (lines 136 to 178). -/
def deployCase {σ : Type} (g : Gateway) (db : Store σ) (w : World σ) (d : Resource) : Run σ :=
  if d.Spec.get "project" = Value.null then
    ⟨w, Status.panic ("deployment \"" ++ d.NameHashKey ++ "\" has no \"project\" field")⟩
  else if d.Spec.get "app" = Value.null then
    ⟨w, Status.panic ("deployment \"" ++ d.NameHashKey ++ "\" has no \"app\" field")⟩
  else
    match (d.Spec.get "project").asString, (d.Spec.get "app").asString with
    | some deployProj, some deployApp =>
      if hasKey g.targetedProjects deployProj && hasKey g.targetedApps deployApp then
        let releaseName := d.NameHashKey ++ "-" ++ g.clusterName
        let sha1 := d.Spec.get "sha1"
        let w1 := w.record (Effect.getSync "release" releaseName [])
        match db.GetSync w.db "release" releaseName [] with
        | none => ⟨w1, Status.panic "GetSync panicked"⟩
        | some res =>
          match res.err with
          | some (GoError.other msg) => ⟨w1, Status.panic msg⟩
          | _ =>
            if releaseOutdated res.resources sha1 then
              let rel := newRelease releaseName deployProj deployApp sha1 g.clusterName
              let out := db.Apply w1.db rel
              let w2 := ({ w1 with db := out.2 } : World σ).record (Effect.apply rel)
              match out.1 with
              | some err => ⟨w2, Status.panic err.Error⟩
              | none => ⟨w2, Status.returned⟩
            else ⟨w1, Status.returned⟩
      else ⟨w, Status.returned⟩
    | _, _ => ⟨w, Status.panic assertionPanic⟩

/-! ## `cmd/server.go`: the release case -/

/-- The literal `newInstall` of lines 200 to 213. -/
def newInstall (installName relProj relApp : String) (sha1 : Value)
    (clusterName : String) : Resource :=
  { NameHashKey := installName
    Metadata := { Name := installName }
    Kind := "Install"
    Spec := [("project", Value.str relProj), ("app", Value.str relApp),
             ("sha1", sha1), ("cluster", Value.str clusterName),
             ("phase", Value.str "pending")] }

/-- The statement `newInstalls <- newInstall`: the send is recorded; it completes when
the buffer has room and otherwise blocks the only goroutine that receives from the
channel. -/
def sendNewInstall {σ : Type} (w : World σ) (i : Resource) : Run σ :=
  let w1 := w.record (Effect.push i)
  if w1.newInstalls.length < newInstallsCapacity then
    ⟨{ w1 with newInstalls := w1.newInstalls ++ [i] }, Status.returned⟩
  else ⟨w1, Status.blocked⟩

/-- The body of `case r := <-releases` (lines 180 to 224). -/
def releaseCase {σ : Type} (g : Gateway) (db : Store σ) (w : World σ) (r : Resource) : Run σ :=
  match (r.Spec.get "project").asString, (r.Spec.get "app").asString,
      (r.Spec.get "cluster").asString with
  | some relProj, some relApp, some relCluster =>
    if hasKey g.targetedProjects relProj && hasKey g.targetedApps relApp
        && decide (relCluster = g.clusterName) then
      let sha1 := r.Spec.get "sha1"
      let installName := r.NameHashKey ++ "-" ++ fmtS sha1
      let w1 := w.record (Effect.getSync "install" installName [])
      match db.GetSync w.db "install" installName [] with
      | none => ⟨w1, Status.panic "GetSync panicked"⟩
      | some res =>
        match res.err with
        | some (GoError.other msg) => ⟨w1, Status.panic msg⟩
        | _ =>
          if res.resources.length = 0 then
            let ins := newInstall installName relProj relApp sha1 g.clusterName
            let out := db.Apply w1.db ins
            let w2 := ({ w1 with db := out.2 } : World σ).record (Effect.apply ins)
            match out.1 with
            | some err => ⟨w2, Status.panic err.Error⟩
            | none => sendNewInstall w2 ins
          else ⟨w1, Status.returned⟩
    else ⟨w, Status.returned⟩
  | _, _, _ => ⟨w, Status.panic assertionPanic⟩

/-! ## `cmd/server.go`: `gateway.handleInstall` -/

/-- The payload of lines 317 to 319. -/
def installPayload (envFlag label setFlag : String) : String :=
  "\n\x7b\"command\": [\"echo\", \"helmfile\", \"--log-level=debug\", \"-f=helmfile.yaml\", \"\"" ++
    envFlag ++ "\", \"" ++ label ++ "\", \"" ++ setFlag ++
    "\", \"apply\", \"--auto-approve\"]\x7d\n"

/-- The script of lines 320 to 337. -/
def installScript : String :=
  "\nconst \x7b events, Job \x7d = require(\"brigadier\")\n\n" ++
  "events.on(\"div:install\", (e, p) => \x7b\n" ++
  "  console.log(\x7b\"event\": e, \"payload\": p\x7d)\n\n" ++
  "  var ep = JSON.parse(e.payload)\n\n" ++
  "  var job = new Job(\"helmfile-apply\", \"alpine:3.4\")\n" ++
  "  job.tasks = [\n    \"echo Hello\",\n    \"echo World\",\n    ep.command.join(\" \")\n  ]\n\n" ++
  "  job.run()\n\x7d)\n"

/-- The call `r.SendScript(insProj, s, "div:install", "", sha1, payload, "")` of
line 358, with the flags of lines 306 to 316. -/
def installCall (g : Gateway) (insProj insApp sha1 : String) : ScriptCall :=
  let set := ""
  let label := "-l=name=" ++ insApp
  let envFlag := "--environment=" ++ g.env
  let setFlag := if set ≠ "" then "--set=ref=" ++ sha1 ++ "," ++ set else "--set=ref=" ++ sha1
  { project := insProj, script := installScript, event := "div:install", commitish := "",
    commit := sha1, payload := installPayload envFlag label setFlag, logLevel := "" }

/-- The resource `i` after the statement `i.Spec["phase"] = phase`. -/
def withPhase (i : Resource) (phase : String) : Resource :=
  { i with Spec := i.Spec.set "phase" (Value.str phase) }

/-- The value given to `postPhase` in lines 357 to 364 for the error that
`SendScript` returned. -/
def postPhase (err : Option GoError) : String :=
  match err with
  | some _ => "failed"
  | none => "completed"

/-- The branch `case "pending"` of `handleInstall` (lines 305 to 369). -/
def handlePending {σ : Type} (g : Gateway) (db : Store σ) (ad : Adapters) (w : World σ)
    (i : Resource) (insProj insApp : String) : Run σ :=
  match (i.Spec.get "sha1").asString with
  | none => ⟨w, Status.panic assertionPanic⟩
  | some sha1 =>
    let w1 := w.record (Effect.logsWriter "install" i.NameHashKey)
    match ad.logsWriter "install" i.NameHashKey with
    | some err => ⟨w1, Status.panic err.Error⟩
    | none =>
      let w2 := w1.record (Effect.newDelegatedRunner "default")
      match ad.newDelegatedRunner "default" with
      | some err => ⟨w2, Status.panic err.Error⟩
      | none =>
        let running := withPhase i "running"
        let out1 := db.Apply w2.db running
        let w3 := ({ w2 with db := out1.2 } : World σ).record (Effect.apply running)
        match out1.1 with
        | some err => ⟨w3, Status.panic err.Error⟩
        | none =>
          let call := installCall g insProj insApp sha1
          let w4 := w3.record (Effect.sendScript call)
          let final := withPhase running (postPhase (ad.sendScript call))
          let out2 := db.Apply w4.db final
          let w5 := ({ w4 with db := out2.2 } : World σ).record (Effect.apply final)
          match out2.1 with
          | some err => ⟨w5, Status.panic err.Error⟩
          | none => ⟨w5, Status.returned⟩

/-- The method `gateway.handleInstall` (lines 285 to 383). -/
def handleInstall {σ : Type} (g : Gateway) (db : Store σ) (ad : Adapters) (w : World σ)
    (i : Resource) : Run σ :=
  match (i.Spec.get "project").asString, (i.Spec.get "app").asString,
      (i.Spec.get "cluster").asString with
  | some insProj, some insApp, some insCluster =>
    if hasKey g.targetedProjects insProj && hasKey g.targetedApps insApp
        && decide (insCluster = g.clusterName) then
      let insPhase := i.Spec.get "phase"
      if insPhase = Value.str "pending" then handlePending g db ad w i insProj insApp
      else if insPhase = Value.str "failed" then ⟨w, Status.returned⟩
      else if insPhase = Value.str "running" then ⟨w, Status.returned⟩
      else if insPhase = Value.str "completed" then ⟨w, Status.returned⟩
      else
        ⟨w, Status.panic ("unexpected phase for \"" ++ i.NameHashKey ++ "\": " ++ fmtS insPhase)⟩
    else ⟨w, Status.returned⟩
  | _, _, _ => ⟨w, Status.panic assertionPanic⟩

/-! ## `cmd/server.go`: the event loop -/

/-- The case of the `select` that fires in one iteration of the loop, with the value
received.  For `installs`, `none` is the closed channel. -/
inductive Event where
  | deploys (d : Resource)
  | releases (r : Resource)
  | installs (i : Option Resource)
  | newInstalls
  | installErrs (e : GoError)
  | deployErrs (e : GoError)
  | releaseErrs (e : GoError)
  deriving DecidableEq, Repr

/-- The message of lines 228 and 234. -/
def streamStopped : String :=
  "TODO: install stream stopped unexpectedly. implement automatic retry"

/-- One iteration of the loop of lines 133 to 244.  The case `newInstalls` can fire only
when the buffer holds a value; on an empty buffer the iteration does nothing. -/
def step {σ : Type} (g : Gateway) (db : Store σ) (ad : Adapters) (w : World σ) :
    Event → Run σ
  | Event.deploys d => deployCase g db w d
  | Event.releases r => releaseCase g db w r
  | Event.installs none => ⟨w, Status.panic streamStopped⟩
  | Event.installs (some i) => handleInstall g db ad w i
  | Event.newInstalls =>
    match w.newInstalls with
    | [] => ⟨w, Status.returned⟩
    | i :: rest => handleInstall g db ad { w with newInstalls := rest } i
  | Event.installErrs e => ⟨w, Status.panic e.Error⟩
  | Event.deployErrs e => ⟨w, Status.panic e.Error⟩
  | Event.releaseErrs e => ⟨w, Status.panic e.Error⟩

/-- The loop run on a schedule of fired cases: it goes on while each iteration
returns to the `select`, and stops at the first panic or blocked send. -/
def eventLoop {σ : Type} (g : Gateway) (db : Store σ) (ad : Adapters) :
    World σ → List Event → Run σ
  | w, [] => ⟨w, Status.returned⟩
  | w, ev :: rest =>
    match step g db ad w ev with
    | ⟨w1, Status.returned⟩ => eventLoop g db ad w1 rest
    | stopped => stopped

/-! ## The backend tables -/

/-- A table of the backend: its rows, no two of them with the same primary key. -/
structure Table where
  rows : List Resource
  nodup : (rows.map Resource.NameHashKey).Nodup

/-- The state of the backend: for each table name, the table when it exists. -/
abbrev Tables := String → Option Table

/-- The rows of a table whose primary key is `name`. -/
def Table.lookup (t : Table) (name : String) : List Resource :=
  t.rows.filter (fun r => r.NameHashKey = name)

/-- The rows named `name` in the table `table`; there are none when the table does not
exist. -/
def rowsNamed (tables : Tables) (table name : String) : List Resource :=
  match tables table with
  | none => []
  | some t => t.lookup name

/-- The optional `Filter(expr, args...)` applied to rows by the backend, whose
evaluator of filter expressions is the parameter `evalFilter`. -/
def applyFilter (evalFilter : String → List String → Resource → Bool)
    (filter : Option (String × List String)) (rows : List Resource) : List Resource :=
  match filter with
  | none => rows
  | some ea => rows.filter (evalFilter ea.1 ea.2)

/-- Modelled from the spec: the backend client behind `get`, which is outside the
repository and "assumed to provide get/scan/put".  A key lookup answers with the rows
of that key, a scan with all rows, and a request against a table that does not exist
fails with the code `ResourceNotFoundException`. -/
def tableResponse (evalFilter : String → List String → Resource → Bool) (tables : Tables) :
    Query → Response
  | Query.get table _ name filter =>
    match tables table with
    | none =>
      { rows := [], err := some (BackendError.awserr ErrCodeResourceNotFoundException
          "Requested resource not found") }
    | some t => { rows := applyFilter evalFilter filter (t.lookup name), err := none }
  | Query.scan table filter =>
    match tables table with
    | none =>
      { rows := [], err := some (BackendError.awserr ErrCodeResourceNotFoundException
          "Requested resource not found") }
    | some t => { rows := applyFilter evalFilter filter t.rows, err := none }

/-- The store of the gateway when its lookups are the `GetSync` of `dynamodb/get.go`
over backend tables; `Apply`, which is defined in another file of the package, is the
parameter `applyImpl`. -/
def dynamoStoreWith (p : DynamoResourceDB) (evalFilter : String → List String → Resource → Bool)
    (applyImpl : Tables → Resource → Option GoError × Tables) : Store Tables :=
  { GetSync := fun tables resource name selectors =>
      GetSync p (tableResponse evalFilter tables) resource name selectors
    Apply := applyImpl }

/-! ## The store with upsert -/

/-- The table after a put of `r`: the row with the key of `r` is replaced, or `r` is
added. -/
def Table.upsert (t : Table) (r : Resource) : Table :=
  { rows := r :: t.rows.filter (fun x => x.NameHashKey ≠ r.NameHashKey)
    nodup := by
      simp only [List.map_cons, List.nodup_cons, List.mem_map, List.mem_filter]
      refine ⟨?_, ?_⟩
      · rintro ⟨x, ⟨_, hx⟩, hxe⟩
        simp only [ne_eq, decide_not, Bool.not_eq_eq_eq_not, Bool.not_true,
          decide_eq_false_iff_not] at hx
        exact hx hxe
      · exact t.nodup.sublist ((List.filter_sublist _).map _) }

/-- The resource name of a kind: the kind in lower case (`Release` is stored in the
table of `release`). -/
def kindResource (kind : String) : String :=
  String.mk (kind.data.map Char.toLower)

/-- Modelled from the spec: the method `Apply` of the store, declared by the interface
`Store` of `dynamodb/dynamodb.go` and implemented in another file of the package:
"upsert by `NameHashKey`; last-writer-wins", into the table of the resource's kind, so
that a later `GetSync` of that kind and name observes the write. -/
def Apply (p : DynamoResourceDB) (tables : Tables) (r : Resource) : Option GoError × Tables :=
  (none, fun name =>
    if name = p.tableNameForResourceNamed (kindResource r.Kind) then
      match tables name with
      | some t => some (t.upsert r)
      | none => some (Table.upsert { rows := [], nodup := List.nodup_nil } r)
    else tables name)

/-- The store of the gateway with the lookups of `dynamodb/get.go` and the `Apply` of
the spec. -/
def dynamoStore (p : DynamoResourceDB) (evalFilter : String → List String → Resource → Bool) :
    Store Tables :=
  dynamoStoreWith p evalFilter (Apply p)

/-! ## Concrete inputs -/

/-- A store configuration: database `mydb`, namespace `production`. -/
def exampleDB : DynamoResourceDB :=
  { databasePrefix := "div-", crdName := "customresourcedefinition",
    databaseName := "mydb", namespaceName := "production" }

/-- A filter evaluator that keeps every row. -/
def keepAll : String → List String → Resource → Bool := fun _ _ _ => true

/-- The project `myproj`. -/
def exampleProject : Resource :=
  { NameHashKey := "myproj", Metadata := { Name := "myproj" }, Kind := "Project", Spec := [] }

/-- The application `app1` of `myproj`. -/
def exampleApp : Resource :=
  { NameHashKey := "app1", Metadata := { Name := "app1" }, Kind := "Application",
    Spec := [("project", Value.str "myproj")] }

/-- The gateway of cluster `prod1` targeting `myproj` and `app1`. -/
def exampleGateway : Gateway :=
  { targetedProjects := [("myproj", exampleProject)], targetedApps := [("app1", exampleApp)],
    clusterName := "prod1", env := "production" }

/-- The deployment `app1` at content hash `h`. -/
def exampleDeployment (h : String) : Resource :=
  { NameHashKey := "app1", Metadata := { Name := "app1" }, Kind := "Deployment",
    Spec := [("project", Value.str "myproj"), ("app", Value.str "app1"),
             ("sha1", Value.str h)] }

/-- A backend with no table at all. -/
def noTables : Tables := fun _ => none

/-- The world at the start of the loop over a backend `tables`: nothing buffered,
nothing done. -/
def startWorld (tables : Tables) : World Tables :=
  { db := tables, newInstalls := [], trace := [] }

/-- Collaborators that never fail. -/
def workingAdapters : Adapters :=
  { logsWriter := fun _ _ => none, newDelegatedRunner := fun _ => none,
    sendScript := fun _ => none }

/-- The release `app1-prod1` at content hash `h`. -/
def exampleRelease (h : String) : Resource :=
  { NameHashKey := "app1-prod1", Metadata := { Name := "app1-prod1" }, Kind := "Release",
    Spec := [("project", Value.str "myproj"), ("app", Value.str "app1"),
             ("sha1", Value.str h), ("cluster", Value.str "prod1")] }

/-- The install `app1-prod1-abc` with the given `Spec`. -/
def exampleInstall (spec : Spec) : Resource :=
  { NameHashKey := "app1-prod1-abc", Metadata := { Name := "app1-prod1-abc" },
    Kind := "Install", Spec := spec }

/-- A backend that answers every request with zero rows and no error. -/
def emptyBackend : Query → Response := fun _ => { rows := [], err := none }

/-- The job submissions of a trace, oldest first. -/
def submissions (trace : List Effect) : List ScriptCall :=
  trace.filterMap fun e =>
    match e with
    | Effect.sendScript call => some call
    | _ => none

/-- The resources that a trace applied under the key `name` with the phase `phase`,
oldest first. -/
def phaseWrites (trace : List Effect) (name phase : String) : List Resource :=
  trace.filterMap fun e =>
    match e with
    | Effect.apply r =>
      if r.NameHashKey = name ∧ r.Spec.get "phase" = Value.str phase then some r else none
    | _ => none

/-- The image of the install `app1-prod1-abc` that the release handler writes, which is
also what the change feed of the install table delivers for that write. -/
def pendingImage : Resource :=
  newInstall "app1-prod1-abc" "myproj" "app1" (Value.str "abc") "prod1"

/-- A backend that reports every table as missing. -/
def missingTableBackend : Query → Response := fun _ =>
  { rows := [],
    err := some (BackendError.awserr ErrCodeResourceNotFoundException
      "Requested resource not found") }

/-! ## `dynamodb/get.go`: `streamedResources` and `GetAsync` -/

/-- A record of the change feed as the worker of lines 205 to 215 handles it: the
resource that `dynamo.UnmarshalItem` decoded from `NewImage`, and the error it
returned. -/
structure StreamRecord where
  resource : Resource
  unmarshalErr : Option GoError
  deriving DecidableEq, Repr

/-- A value sent on the resource channel or on the error channel of a worker. -/
inductive Sent where
  | resource (r : Resource)
  | error (e : GoError)
  deriving DecidableEq, Repr

/-- The method `streamedResources`: the sends of its record worker (lines 205 to 215),
in order, as long as none of them blocks.  For each record the error of `UnmarshalItem`,
if any, goes to the error channel, and the resource goes to the resource channel when
`name` is empty or equal to its `NameHashKey`.  The parameter `selectors` is not read.
The error channel has capacity 1 and `GetAsync` receives from it once only, so the
worker stays blocked at its third failing record at the latest and sends nothing after
it; on records that all decode, the list is what the worker sends. -/
def streamedResources (resource name : String) (selectors : List String) :
    List StreamRecord → List Sent
  | [] => []
  | record :: rest =>
    (match record.unmarshalErr with
      | some err => [Sent.error err]
      | none => []) ++
    (if name = "" ∨ name = record.resource.NameHashKey then [Sent.resource record.resource]
      else []) ++
    streamedResources resource name selectors rest

/-- What one iteration of the `select` of lines 153 to 168 receives: a resource from
`ch`, the closing of `ch`, a non-nil error from `errCh`, or the nil that a closed
`errCh` yields. -/
inductive Received where
  | resource (r : Resource)
  | closed
  | error (e : GoError)
  | errClosed
  deriving DecidableEq, Repr

/-- The loop `for ch != nil || errCh != nil` of lines 153 to 168, on the values it
receives: the sends it makes, in order.  The two flags say whether `ch` and `errCh` are
still non-nil; a value of a channel that is already nil cannot be received and is
passed over. -/
def watchLoop (chOpen errOpen : Bool) : List Received → List Sent
  | [] => []
  | item :: rest =>
    if chOpen = false ∧ errOpen = false then []
    else
      match item with
      | Received.resource r =>
        if chOpen then Sent.resource r :: watchLoop chOpen errOpen rest
        else watchLoop chOpen errOpen rest
      | Received.closed => watchLoop false errOpen rest
      | Received.error e =>
        if errOpen then Sent.error e :: watchLoop chOpen false rest
        else watchLoop chOpen errOpen rest
      | Received.errClosed => watchLoop chOpen false rest

/-- The method `GetAsync`: the sends of its worker (lines 133 to 170), in order, for the
values `received` that its watch loop gets from `streamedResources`.  An error of `get`
is sent and the worker stops; otherwise every resource of `get` is sent in order, and
then, when `watch` is set, the loop runs.  The result is `none` when `get` panics. -/
def GetAsync (p : DynamoResourceDB) (backend : Query → Response) (resource name : String)
    (selectors : List String) (watch : Bool) (received : List Received) :
    Option (List Sent) :=
  match get p backend resource name selectors with
  | none => none
  | some r =>
    match r.err with
    | some err => some [Sent.error err]
    | none =>
      some (r.resources.map Sent.resource ++
        (if watch then watchLoop true true received else []))

/-- The resources among the sends: the sequence on the resource channel. -/
def resourcesSent (sent : List Sent) : List Resource :=
  sent.filterMap fun s =>
    match s with
    | Sent.resource r => some r
    | Sent.error _ => none

/-- The resources that `ch` delivers before it is closed, in order. -/
def feedResources : List Received → List Resource
  | [] => []
  | Received.resource r :: rest => r :: feedResources rest
  | Received.closed :: _ => []
  | Received.error _ :: rest => feedResources rest
  | Received.errClosed :: rest => feedResources rest

/-- The value that the watch loop receives for a send of `streamedResources`. -/
def receive : Sent → Received
  | Sent.resource r => Received.resource r
  | Sent.error e => Received.error e

/-- The deployment `app2`, labelled `env=dev`. -/
def devDeployment : Resource :=
  { NameHashKey := "app2", Metadata := { Name := "app2", Labels := [("env", "dev")] },
    Kind := "Deployment",
    Spec := [("project", Value.str "myproj"), ("app", Value.str "app1"),
             ("sha1", Value.str "abc")] }

/-! ## `cmd/server.go`: gateway startup -/

/-- The Go statement `m[k] = v` on a map of resources: overwrite in place when the key
is present, otherwise add the entry. -/
def mapInsert : List (String × Resource) → String → Resource → List (String × Resource)
  | [], k, v => [(k, v)]
  | (k0, v0) :: rest, k, v =>
    if k0 = k then (k, v) :: rest else (k0, v0) :: mapInsert rest k v

/-- The loop of lines 68 to 75, from the map built so far. -/
def targetProjects (targetedProjectName : String) :
    List Resource → List (String × Resource) → List (String × Resource)
  | [], m => m
  | proj :: rest, m =>
    if targetedProjectName ≠ "" ∧ proj.NameHashKey ≠ targetedProjectName then
      targetProjects targetedProjectName rest m
    else
      targetProjects targetedProjectName rest (mapInsert m proj.NameHashKey proj)

/-- The loop of lines 90 to 93, from the value of `noProject` so far. -/
def noProject (targetedProjectName : String) : List Resource → Bool → Bool
  | [], acc => acc
  | p :: rest, acc =>
    noProject targetedProjectName rest (acc && decide (p.NameHashKey ≠ targetedProjectName))

/-- The loop of lines 103 to 117, from the map built so far; `appFilter` is the global
`deployOpts.App`.  An error is the message of a panic. -/
def targetApps (targetedProjects : List (String × Resource)) (appFilter : String) :
    List Resource → List (String × Resource) → Except String (List (String × Resource))
  | [], m => Except.ok m
  | app :: rest, m =>
    if appFilter ≠ "" ∧ app.NameHashKey ≠ appFilter then
      targetApps targetedProjects appFilter rest m
    else if app.Spec.get "project" = Value.null then
      Except.error ("application \"" ++ app.NameHashKey ++ "\" has no \"project\" field")
    else
      match (app.Spec.get "project").asString with
      | none => Except.error assertionPanic
      | some appProject =>
        if hasKey targetedProjects appProject then
          targetApps targetedProjects appFilter rest (mapInsert m app.NameHashKey app)
        else
          targetApps targetedProjects appFilter rest m

/-- How `RunE` ends before the event loop: it returns an error, it panics, or it
reaches the loop with the struct `gateway` it built. -/
inductive Startup where
  | failed (err : GoError)
  | panicked (msg : String)
  | started (g : Gateway)

/-- Lines 61 to 127 of `RunE`, once the clients and the stores are obtained: the
targeted projects and applications are resolved with two `GetSync` calls on the store
in state `s`. -/
def startup {σ : Type} (db : Store σ) (s : σ)
    (clusterName targetedProjectName appFilter env : String) : Startup :=
  match db.GetSync s "project" targetedProjectName [] with
  | none => Startup.panicked "GetSync panicked"
  | some knownProjects =>
    match knownProjects.err with
    | some err => Startup.failed err
    | none =>
      if targetedProjectName ≠ "" ∧
          noProject targetedProjectName knownProjects.resources true = true then
        Startup.failed
          (GoError.other ("no project named \"" ++ targetedProjectName ++ "\" found"))
      else
        match db.GetSync s "application" "" [] with
        | none => Startup.panicked "GetSync panicked"
        | some knownApps =>
          match knownApps.err with
          | some err => Startup.failed err
          | none =>
            match targetApps (targetProjects targetedProjectName knownProjects.resources [])
                appFilter knownApps.resources [] with
            | Except.error msg => Startup.panicked msg
            | Except.ok targetedApps =>
              Startup.started
                { targetedProjects :=
                    targetProjects targetedProjectName knownProjects.resources []
                  targetedApps := targetedApps
                  clusterName := clusterName
                  env := env }

/-- Whether an application is targeted, in the words of the spec: its `Spec.project` is a
key of the targeted projects and, when the filter is not empty, its `NameHashKey` is
the filter. -/
def appTargeted (targetedProjects : List (String × Resource)) (appFilter : String)
    (app : Resource) : Bool :=
  (decide (appFilter = "") || decide (app.NameHashKey = appFilter)) &&
    match (app.Spec.get "project").asString with
    | some appProject => hasKey targetedProjects appProject
    | none => false

/-- A backend whose only table is that of `project`, holding `myproj`. -/
def projectOnly : Tables := fun table =>
  if table = "div-mydb-production-project" then
    some { rows := [exampleProject], nodup := by simp }
  else none

/-- A backend with the table of `project`, holding `myproj`, and an empty table of
`application`. -/
def noApplications : Tables := fun table =>
  if table = "div-mydb-production-project" then
    some { rows := [exampleProject], nodup := by simp }
  else if table = "div-mydb-production-application" then
    some { rows := [], nodup := List.nodup_nil }
  else none

/-- The deployment `app1` of `myproj` with no `sha1` in its `Spec`. -/
def deploymentWithoutSha1 : Resource :=
  { NameHashKey := "app1", Metadata := { Name := "app1" }, Kind := "Deployment",
    Spec := [("project", Value.str "myproj"), ("app", Value.str "app1")] }

/-- The release `app1-prod1` with no `sha1` in its `Spec`. -/
def releaseWithoutSha1 : Resource :=
  { NameHashKey := "app1-prod1", Metadata := { Name := "app1-prod1" }, Kind := "Release",
    Spec := [("project", Value.str "myproj"), ("app", Value.str "app1"),
             ("cluster", Value.str "prod1")] }

/-! ## `dynamodb/get.go`: `getCRDs` -/

/-- The type `api.CustomResourceDefinition`, of which the callers read `Metadata.Name`. -/
structure CustomResourceDefinition where
  Metadata : Metadata
  deriving DecidableEq, Repr

/-- What `getCRDs` does between its entry and its return: a scan of a table, or a
`time.Sleep` of so many seconds. -/
inductive CRDStep where
  | scan (table : String)
  | sleep (seconds : Nat)
  deriving DecidableEq, Repr

/-- The pair returned by `getCRDs`, with the steps it took, oldest first. -/
structure CRDsResult where
  crds : List CustomResourceDefinition
  err : Option GoError
  steps : List CRDStep
  deriving DecidableEq, Repr

/-- The loop of lines 33 to 51.  The backend is `scanAll table attempt crds`: what the
call `Scan().All(&crds)` number `attempt` leaves in the slice that held `crds`, and the
error it returns.  The loop has no bound of its own; `fuel` bounds the number of scans,
and the result is `none` when it is used up. -/
def getCRDsLoop
    (scanAll : String → Nat → List CustomResourceDefinition →
      List CustomResourceDefinition × Option BackendError)
    (table : String) :
    Nat → Nat → List CustomResourceDefinition → List CRDStep → Option CRDsResult
  | 0, _, _, _ => none
  | fuel + 1, attempt, crds, steps =>
    match (scanAll table attempt crds).2 with
    | none =>
      some { crds := (scanAll table attempt crds).1, err := none,
             steps := steps ++ [CRDStep.scan table] }
    | some (BackendError.awserr code _) =>
      if code = ErrCodeResourceNotFoundException then
        some { crds := (scanAll table attempt crds).1, err := none,
               steps := steps ++ [CRDStep.scan table] }
      else if code = ErrCodeProvisionedThroughputExceededException ∨
          code = ErrCodeLimitExceededException then
        getCRDsLoop scanAll table fuel (attempt + 1) (scanAll table attempt crds).1
          (steps ++ [CRDStep.scan table] ++ [CRDStep.sleep 3])
      else
        some { crds := (scanAll table attempt crds).1, err := none,
               steps := steps ++ [CRDStep.scan table] }
    | some (BackendError.plain message) =>
      some { crds := [], err := some (GoError.other ("unexpected error: " ++ message)),
             steps := steps ++ [CRDStep.scan table] }

/-- The function `getCRDs`, on the global table of the definitions. -/
def getCRDs (p : DynamoResourceDB)
    (scanAll : String → Nat → List CustomResourceDefinition →
      List CustomResourceDefinition × Option BackendError)
    (fuel : Nat) : Option CRDsResult :=
  getCRDsLoop scanAll (globalTableName p.databasePrefix p.databaseName p.crdName) fuel 0 [] []

/-- The content of the slice `crds` when scan number `attempt` starts, if every earlier
scan was retried. -/
def crdsBefore
    (scanAll : String → Nat → List CustomResourceDefinition →
      List CustomResourceDefinition × Option BackendError)
    (table : String) : Nat → List CustomResourceDefinition
  | 0 => []
  | attempt + 1 => (scanAll table attempt (crdsBefore scanAll table attempt)).1

/-- Whether an error of the backend carries one of the two throughput-limit codes. -/
def isThrottle : Option BackendError → Bool
  | some (BackendError.awserr code _) =>
    decide (code = ErrCodeProvisionedThroughputExceededException ∨
      code = ErrCodeLimitExceededException)
  | _ => false

/-- The steps of `k` throttled scans, each followed by its wait. -/
def retrySteps (table : String) : Nat → List CRDStep
  | 0 => []
  | k + 1 => CRDStep.scan table :: CRDStep.sleep 3 :: retrySteps table k

/-- A backend of definitions that is throttled twice and then answers with the
definition of `deployment`. -/
def throttledTwice : String → Nat → List CustomResourceDefinition →
    List CustomResourceDefinition × Option BackendError :=
  fun _ attempt crds =>
    if attempt < 2 then
      (crds, some (BackendError.awserr ErrCodeProvisionedThroughputExceededException "slow down"))
    else ([{ Metadata := { Name := "deployment" } }], none)

/-- An install of `myproj` and `app1` on the cluster `prod2`, with no `phase` and no
`sha1` in its `Spec`. -/
def foreignInstall : Resource :=
  { NameHashKey := "app1-prod2-abc", Metadata := { Name := "app1-prod2-abc" },
    Kind := "Install",
    Spec := [("project", Value.str "myproj"), ("app", Value.str "app1"),
             ("cluster", Value.str "prod2")] }

/-- The application `app2` with no `project` in its `Spec`. -/
def appWithoutProject : Resource :=
  { NameHashKey := "app2", Metadata := { Name := "app2" }, Kind := "Application",
    Spec := [] }

/-! ## The store over any backend -/

/-- The store of the gateway when its lookups are the `GetSync` of `dynamodb/get.go`
over a backend that answers each request as it pleases, failures included; `Apply` is
the parameter `applyImpl`. -/
def storeOver {σ : Type} (p : DynamoResourceDB) (backend : σ → Query → Response)
    (applyImpl : σ → Resource → Option GoError × σ) : Store σ :=
  { GetSync := fun s resource name selectors => GetSync p (backend s) resource name selectors
    Apply := applyImpl }

/-- A backend that is throttled on every request and decodes nothing. -/
def throttledBackend : Query → Response := fun _ =>
  { rows := [],
    err := some (BackendError.awserr ErrCodeProvisionedThroughputExceededException
      "slow down") }

/-! # Properties -/

/-! ## Lemmas on names and lookups -/

theorem dash_name_ne_empty (a b : String) : a ++ "-" ++ b ≠ "" := by
  intro h
  have hd := congrArg String.data h
  simp at hd

theorem tableResponse_get_none (evalFilter : String → List String → Resource → Bool)
    (tables : Tables) (table hk name : String) (h : tables table = none) :
    tableResponse evalFilter tables (Query.get table hk name none) =
      { rows := [], err := some (BackendError.awserr ErrCodeResourceNotFoundException
          "Requested resource not found") } := by
  simp [tableResponse, h]

theorem tableResponse_get_some (evalFilter : String → List String → Resource → Bool)
    (tables : Tables) (table hk name : String) (t : Table) (h : tables table = some t) :
    tableResponse evalFilter tables (Query.get table hk name none) =
      { rows := t.lookup name, err := none } := by
  simp [tableResponse, h, applyFilter]

theorem GetSync_named (p : DynamoResourceDB)
    (evalFilter : String → List String → Resource → Bool) (tables : Tables)
    (resource name : String) (hname : name ≠ "") :
    ∃ e, GetSync p (tableResponse evalFilter tables) resource name [] =
        some { resources := rowsNamed tables (p.tableNameForResourceNamed resource) name,
               err := e } ∧
      (∀ msg, e ≠ some (GoError.other msg)) ∧
      (e = none ∨ rowsNamed tables (p.tableNameForResourceNamed resource) name = []) := by
  have hq : getQuery p resource name [] =
      some (Query.get (p.tableNameForResourceNamed resource) HashKeyName name none) := by
    simp [getQuery, hname]
  cases htab : tables (p.tableNameForResourceNamed resource) with
  | none =>
    refine ⟨some (GoError.resourceNotFound (msgTableNotFound p resource name)), ?_, ?_, ?_⟩
    · simp [GetSync, get, hq, tableResponse_get_none _ _ _ _ _ htab, getReturn, hname,
        rowsNamed, htab]
    · intro msg h; cases h
    · simp [rowsNamed, htab]
  | some t =>
    by_cases hrows : t.lookup name = []
    · refine ⟨some (GoError.resourceNotFound (msgItemNotFound p resource name)), ?_, ?_, ?_⟩
      · simp [GetSync, get, hq, tableResponse_get_some _ _ _ _ _ t htab, getReturn, hname,
          rowsNamed, htab, hrows]
      · intro msg h; cases h
      · simp [rowsNamed, htab, hrows]
    · refine ⟨none, ?_, ?_, ?_⟩
      · simp [GetSync, get, hq, tableResponse_get_some _ _ _ _ _ t htab, getReturn,
          rowsNamed, htab, hrows]
      · intro msg h; cases h
      · exact Or.inl rfl

theorem lookup_tail_nil (rows : List Resource) (name : String)
    (hnd : (rows.map Resource.NameHashKey).Nodup) (r0 : Resource) (rest : List Resource)
    (h : rows.filter (fun r => r.NameHashKey = name) = r0 :: rest) : rest = [] := by
  induction rows with
  | nil => simp at h
  | cons a l ih =>
    simp only [List.map_cons, List.nodup_cons] at hnd
    by_cases ha : a.NameHashKey = name
    · simp only [List.filter_cons, ha, decide_True, if_true, List.cons.injEq] at h
      rw [← h.2]
      rw [List.filter_eq_nil_iff]
      intro x hx hxn
      simp only [decide_eq_true_eq] at hxn
      exact hnd.1 (List.mem_map.mpr ⟨x, hx, by rw [hxn, ha]⟩)
    · simp only [List.filter_cons, ha, decide_False] at h
      exact ih hnd.2 h

theorem rowsNamed_tail_nil (tables : Tables) (table name : String) (r0 : Resource)
    (rest : List Resource) (h : rowsNamed tables table name = r0 :: rest) : rest = [] := by
  unfold rowsNamed at h
  cases ht : tables table with
  | none => simp [ht] at h
  | some t =>
    simp only [ht, Table.lookup] at h
    exact lookup_tail_nil t.rows name t.nodup r0 rest h

theorem lookup_upsert_self (t : Table) (r : Resource) :
    (t.upsert r).lookup r.NameHashKey = [r] := by
  simp [Table.upsert, Table.lookup, List.filter_cons, List.filter_filter]

theorem lookup_upsert_other (t : Table) (r : Resource) (name : String)
    (hne : r.NameHashKey ≠ name) : (t.upsert r).lookup name = t.lookup name := by
  simp only [Table.upsert, Table.lookup, List.filter_cons, hne, decide_False,
    List.filter_filter]
  apply List.filter_congr
  intro x _
  by_cases hx : x.NameHashKey = name
  · have hxr : ¬ name = r.NameHashKey := fun h => hne h.symm
    simp [hx, hxr]
  · simp [hx]

theorem rowsNamed_Apply_self (p : DynamoResourceDB) (tables : Tables) (r : Resource) :
    rowsNamed (Apply p tables r).2 (p.tableNameForResourceNamed (kindResource r.Kind))
      r.NameHashKey = [r] := by
  unfold rowsNamed Apply
  cases ht : tables (p.tableNameForResourceNamed (kindResource r.Kind)) <;>
    simp [ht, lookup_upsert_self]

theorem rowsNamed_Apply_other (p : DynamoResourceDB) (tables : Tables) (r : Resource)
    (table name : String) (hne : r.NameHashKey ≠ name) :
    rowsNamed (Apply p tables r).2 table name = rowsNamed tables table name := by
  unfold rowsNamed Apply
  by_cases htab : table = p.tableNameForResourceNamed (kindResource r.Kind)
  · subst htab
    cases ht : tables (p.tableNameForResourceNamed (kindResource r.Kind)) with
    | none =>
      simp only [if_true, ht]
      rw [lookup_upsert_other _ _ _ hne]
      simp [Table.lookup]
    | some t =>
      simp only [if_true, ht]
      rw [lookup_upsert_other _ _ _ hne]
  · simp [htab]

theorem kindResource_Release : kindResource "Release" = "release" := by decide

theorem kindResource_Install : kindResource "Install" = "install" := by decide

theorem eventLoop_cons_returned {σ : Type} (g : Gateway) (db : Store σ) (ad : Adapters)
    (w w1 : World σ) (ev : Event) (rest : List Event)
    (h : step g db ad w ev = ⟨w1, Status.returned⟩) :
    eventLoop g db ad w (ev :: rest) = eventLoop g db ad w1 rest := by
  simp [eventLoop, h]

theorem eventLoop_cons_stopped {σ : Type} (g : Gateway) (db : Store σ) (ad : Adapters)
    (w : World σ) (ev : Event) (rest : List Event)
    (h : (step g db ad w ev).status ≠ Status.returned) :
    eventLoop g db ad w (ev :: rest) = step g db ad w ev := by
  unfold eventLoop
  split
  · rename_i w1 heq
    rw [heq] at h
    exact absurd rfl h
  · rfl

theorem deployCase_upToDate (p : DynamoResourceDB)
    (evalFilter : String → List String → Resource → Bool)
    (applyImpl : Tables → Resource → Option GoError × Tables)
    (g : Gateway) (w : World Tables) (d : Resource) (proj app : String)
    (hproj : d.Spec.get "project" = Value.str proj) (happ : d.Spec.get "app" = Value.str app)
    (htp : hasKey g.targetedProjects proj = true) (hta : hasKey g.targetedApps app = true)
    (hout : releaseOutdated (rowsNamed w.db (p.tableNameForResourceNamed "release")
      (d.NameHashKey ++ "-" ++ g.clusterName)) (d.Spec.get "sha1") = false) :
    deployCase g (dynamoStoreWith p evalFilter applyImpl) w d =
      ⟨w.record (Effect.getSync "release" (d.NameHashKey ++ "-" ++ g.clusterName) []),
        Status.returned⟩ := by
  obtain ⟨e, hG, hne, -⟩ := GetSync_named p evalFilter w.db "release"
    (d.NameHashKey ++ "-" ++ g.clusterName) (dash_name_ne_empty _ _)
  have hG2 : (dynamoStoreWith p evalFilter applyImpl).GetSync w.db "release"
      (d.NameHashKey ++ "-" ++ g.clusterName) [] = _ := hG
  unfold deployCase
  simp only [hproj, happ, Value.asString, htp, hta, hG2]
  rcases e with _ | e
  · simp [hout]
  · cases e with
    | resourceNotFound m => simp [hout]
    | other m => exact absurd rfl (hne m)

theorem deployCase_applies (p : DynamoResourceDB)
    (evalFilter : String → List String → Resource → Bool)
    (g : Gateway) (w : World Tables) (d : Resource) (proj app : String)
    (hproj : d.Spec.get "project" = Value.str proj) (happ : d.Spec.get "app" = Value.str app)
    (htp : hasKey g.targetedProjects proj = true) (hta : hasKey g.targetedApps app = true)
    (hout : releaseOutdated (rowsNamed w.db (p.tableNameForResourceNamed "release")
      (d.NameHashKey ++ "-" ++ g.clusterName)) (d.Spec.get "sha1") = true) :
    deployCase g (dynamoStore p evalFilter) w d =
      ⟨{ db := (Apply p w.db (newRelease (d.NameHashKey ++ "-" ++ g.clusterName) proj app
            (d.Spec.get "sha1") g.clusterName)).2
         newInstalls := w.newInstalls
         trace := w.trace ++
           [Effect.getSync "release" (d.NameHashKey ++ "-" ++ g.clusterName) [],
            Effect.apply (newRelease (d.NameHashKey ++ "-" ++ g.clusterName) proj app
              (d.Spec.get "sha1") g.clusterName)] },
        Status.returned⟩ := by
  obtain ⟨e, hG, hne, -⟩ := GetSync_named p evalFilter w.db "release"
    (d.NameHashKey ++ "-" ++ g.clusterName) (dash_name_ne_empty _ _)
  have hG2 : (dynamoStore p evalFilter).GetSync w.db "release"
      (d.NameHashKey ++ "-" ++ g.clusterName) [] = _ := hG
  have hA : ∀ r, (dynamoStore p evalFilter).Apply w.db r = Apply p w.db r := fun _ => rfl
  unfold deployCase
  simp only [hproj, happ, Value.asString, htp, hta, hG2]
  rcases e with _ | e
  · simp [hout, World.record, hA, Apply]
  · cases e with
    | resourceNotFound m => simp [hout, World.record, hA, Apply]
    | other m => exact absurd rfl (hne m)

theorem deployLoop_upToDate (p : DynamoResourceDB)
    (evalFilter : String → List String → Resource → Bool)
    (g : Gateway) (ad : Adapters) (d : Resource) (proj app : String)
    (hproj : d.Spec.get "project" = Value.str proj) (happ : d.Spec.get "app" = Value.str app)
    (htp : hasKey g.targetedProjects proj = true) (hta : hasKey g.targetedApps app = true)
    (n : Nat) :
    ∀ w : World Tables,
      releaseOutdated (rowsNamed w.db (p.tableNameForResourceNamed "release")
        (d.NameHashKey ++ "-" ++ g.clusterName)) (d.Spec.get "sha1") = false →
      eventLoop g (dynamoStore p evalFilter) ad w (List.replicate n (Event.deploys d)) =
        ⟨{ w with trace := (w.trace ++ List.replicate n
            (Effect.getSync "release" (d.NameHashKey ++ "-" ++ g.clusterName) [])) },
          Status.returned⟩ := by
  induction n with
  | zero => intro w _; simp [eventLoop]
  | succ n ih =>
    intro w hout
    have hstep : step g (dynamoStore p evalFilter) ad w (Event.deploys d) =
        ⟨w.record (Effect.getSync "release" (d.NameHashKey ++ "-" ++ g.clusterName) []),
          Status.returned⟩ :=
      deployCase_upToDate p evalFilter (Apply p) g w d proj app hproj happ htp hta hout
    rw [List.replicate_succ, eventLoop_cons_returned _ _ _ _ _ _ _ hstep,
      ih (w.record (Effect.getSync "release" (d.NameHashKey ++ "-" ++ g.clusterName) [])) hout]
    simp [World.record, List.replicate_succ]

/-! ## The deployment rule -/

/-- C1. Deployment rule, over the lookups of `dynamodb/get.go` on any state of the
backend tables and for any behaviour of `Apply`.  For a deployment whose `project` and
`app` are strings in the targeted sets, the handler makes exactly one lookup, of the
release `<d.NameHashKey>-<clusterName>`; when no such release is stored, or the stored
one has another `sha1`, it then makes exactly one `Apply`, of the resource with that
`NameHashKey` and `Metadata.Name`, kind `Release` and the four-key `Spec`; when the
stored one has the same `sha1` it makes no `Apply`.  A deployment that is not targeted
causes no lookup and no `Apply`. -/
theorem deployment_rule (p : DynamoResourceDB)
    (evalFilter : String → List String → Resource → Bool)
    (applyImpl : Tables → Resource → Option GoError × Tables)
    (g : Gateway) (w : World Tables) (d : Resource) :
    (∀ proj app : String,
      d.Spec.get "project" = Value.str proj → d.Spec.get "app" = Value.str app →
      hasKey g.targetedProjects proj = true → hasKey g.targetedApps app = true →
      ((rowsNamed w.db (p.tableNameForResourceNamed "release")
            (d.NameHashKey ++ "-" ++ g.clusterName) = [] ∨
          ∃ r0 rest, rowsNamed w.db (p.tableNameForResourceNamed "release")
              (d.NameHashKey ++ "-" ++ g.clusterName) = r0 :: rest ∧
            r0.Spec.get "sha1" ≠ d.Spec.get "sha1") →
        (deployCase g (dynamoStoreWith p evalFilter applyImpl) w d).world.trace =
          w.trace ++
            [Effect.getSync "release" (d.NameHashKey ++ "-" ++ g.clusterName) [],
             Effect.apply
               { NameHashKey := d.NameHashKey ++ "-" ++ g.clusterName
                 Metadata := { Name := d.NameHashKey ++ "-" ++ g.clusterName, Labels := [] }
                 Kind := "Release"
                 Spec := [("project", Value.str proj), ("app", Value.str app),
                          ("sha1", d.Spec.get "sha1"),
                          ("cluster", Value.str g.clusterName)] }]) ∧
      ((∃ r0 rest, rowsNamed w.db (p.tableNameForResourceNamed "release")
              (d.NameHashKey ++ "-" ++ g.clusterName) = r0 :: rest ∧
            r0.Spec.get "sha1" = d.Spec.get "sha1") →
        deployCase g (dynamoStoreWith p evalFilter applyImpl) w d =
          ⟨w.record (Effect.getSync "release" (d.NameHashKey ++ "-" ++ g.clusterName) []),
            Status.returned⟩)) ∧
    ((¬ ∃ proj app : String,
        d.Spec.get "project" = Value.str proj ∧ d.Spec.get "app" = Value.str app ∧
        hasKey g.targetedProjects proj = true ∧ hasKey g.targetedApps app = true) →
      (deployCase g (dynamoStoreWith p evalFilter applyImpl) w d).world = w) := by
  obtain ⟨e, hG, hne, -⟩ := GetSync_named p evalFilter w.db "release"
    (d.NameHashKey ++ "-" ++ g.clusterName) (dash_name_ne_empty _ _)
  have hG2 : (dynamoStoreWith p evalFilter applyImpl).GetSync w.db "release"
      (d.NameHashKey ++ "-" ++ g.clusterName) [] = _ := hG
  refine ⟨?_, ?_⟩
  · intro proj app hproj happ htp hta
    refine ⟨?_, ?_⟩
    · intro hcond
      have hout : releaseOutdated (rowsNamed w.db (p.tableNameForResourceNamed "release")
          (d.NameHashKey ++ "-" ++ g.clusterName)) (d.Spec.get "sha1") = true := by
        rcases hcond with h | ⟨r0, rest, h, hsha⟩
        · simp [h, releaseOutdated]
        · simp [h, releaseOutdated, hsha]
      unfold deployCase
      simp only [hproj, happ, Value.asString, htp, hta, hG2]
      rcases e with _ | e
      · simp [hout, newRelease, World.record]
        split <;> rfl
      · cases e with
        | resourceNotFound m =>
          simp [hout, newRelease, World.record]
          split <;> rfl
        | other m => exact absurd rfl (hne m)
    · rintro ⟨r0, rest, h, hsha⟩
      have hout : releaseOutdated (rowsNamed w.db (p.tableNameForResourceNamed "release")
          (d.NameHashKey ++ "-" ++ g.clusterName)) (d.Spec.get "sha1") = false := by
        simp [h, releaseOutdated, hsha]
      unfold deployCase
      simp only [hproj, happ, Value.asString, htp, hta, hG2]
      rcases e with _ | e
      · simp [hout]
      · cases e with
        | resourceNotFound m => simp [hout]
        | other m => exact absurd rfl (hne m)
  · intro hnot
    unfold deployCase
    cases hp : d.Spec.get "project" with
    | null => simp
    | bool b =>
      cases ha : d.Spec.get "app" <;> simp [Value.asString]
    | str proj =>
      cases ha : d.Spec.get "app" with
      | null => simp
      | bool b => simp [Value.asString]
      | str app =>
        have hnt : (hasKey g.targetedProjects proj && hasKey g.targetedApps app) = false := by
          by_contra hc
          simp only [Bool.not_eq_false, Bool.and_eq_true] at hc
          exact hnot ⟨proj, app, hp, ha, hc.1, hc.2⟩
        simp [Value.asString, hnt]

theorem deployment_rule_witness :
    (deployCase exampleGateway (dynamoStoreWith exampleDB keepAll (Apply exampleDB))
        (startWorld noTables) (exampleDeployment "abc")).world.trace =
      (startWorld noTables).trace ++
        [Effect.getSync "release"
            ((exampleDeployment "abc").NameHashKey ++ "-" ++ exampleGateway.clusterName) [],
         Effect.apply
           { NameHashKey := (exampleDeployment "abc").NameHashKey ++ "-" ++
               exampleGateway.clusterName
             Metadata := { Name := (exampleDeployment "abc").NameHashKey ++ "-" ++
               exampleGateway.clusterName, Labels := [] }
             Kind := "Release"
             Spec := [("project", Value.str "myproj"), ("app", Value.str "app1"),
                      ("sha1", (exampleDeployment "abc").Spec.get "sha1"),
                      ("cluster", Value.str exampleGateway.clusterName)] }] :=
  ((deployment_rule exampleDB keepAll (Apply exampleDB) exampleGateway (startWorld noTables)
      (exampleDeployment "abc")).1 "myproj" "app1" (by decide) (by decide) (by decide)
      (by decide)).1 (Or.inl rfl)

/-! ## Release idempotence -/

/-- C2. Release idempotence, over the store whose `Apply` is an upsert by `NameHashKey`
that `GetSync` observes.  For a targeted deployment `d` and `n + 1` consecutive
deployment events carrying `d`, the loop returns to its `select` after each of them;
the first event makes one lookup and at most one `Apply` (of the release
`<d.NameHashKey>-<clusterName>`), every later event makes one lookup and no `Apply`;
and afterwards the release table holds exactly one row of that name, whose `sha1` is
that of `d`. -/
theorem release_idempotence (p : DynamoResourceDB)
    (evalFilter : String → List String → Resource → Bool)
    (g : Gateway) (ad : Adapters) (w : World Tables) (d : Resource) (proj app : String)
    (hproj : d.Spec.get "project" = Value.str proj) (happ : d.Spec.get "app" = Value.str app)
    (htp : hasKey g.targetedProjects proj = true) (hta : hasKey g.targetedApps app = true)
    (n : Nat) :
    ∃ applied : List Effect,
      (applied = [] ∨
        applied = [Effect.apply (newRelease (d.NameHashKey ++ "-" ++ g.clusterName) proj app
          (d.Spec.get "sha1") g.clusterName)]) ∧
      (eventLoop g (dynamoStore p evalFilter) ad w
          (List.replicate (n + 1) (Event.deploys d))).status = Status.returned ∧
      (eventLoop g (dynamoStore p evalFilter) ad w
          (List.replicate (n + 1) (Event.deploys d))).world.trace =
        w.trace ++ [Effect.getSync "release" (d.NameHashKey ++ "-" ++ g.clusterName) []] ++
          applied ++
          List.replicate n
            (Effect.getSync "release" (d.NameHashKey ++ "-" ++ g.clusterName) []) ∧
      ∃ r, rowsNamed (eventLoop g (dynamoStore p evalFilter) ad w
              (List.replicate (n + 1) (Event.deploys d))).world.db
            (p.tableNameForResourceNamed "release")
            (d.NameHashKey ++ "-" ++ g.clusterName) = [r] ∧
          r.Spec.get "sha1" = d.Spec.get "sha1" := by
  cases hout : releaseOutdated (rowsNamed w.db (p.tableNameForResourceNamed "release")
      (d.NameHashKey ++ "-" ++ g.clusterName)) (d.Spec.get "sha1") with
  | false =>
    refine ⟨[], Or.inl rfl, ?_⟩
    rw [deployLoop_upToDate p evalFilter g ad d proj app hproj happ htp hta (n + 1) w hout]
    refine ⟨rfl, by simp [List.replicate_succ], ?_⟩
    cases hrows : rowsNamed w.db (p.tableNameForResourceNamed "release")
        (d.NameHashKey ++ "-" ++ g.clusterName) with
    | nil => simp [hrows, releaseOutdated] at hout
    | cons r0 rest =>
      have hrest := rowsNamed_tail_nil _ _ _ _ _ hrows
      subst hrest
      refine ⟨r0, rfl, ?_⟩
      simpa [hrows, releaseOutdated] using hout
  | true =>
    refine ⟨[Effect.apply (newRelease (d.NameHashKey ++ "-" ++ g.clusterName) proj app
      (d.Spec.get "sha1") g.clusterName)], Or.inr rfl, ?_⟩
    have hstep : step g (dynamoStore p evalFilter) ad w (Event.deploys d) = _ :=
      deployCase_applies p evalFilter g w d proj app hproj happ htp hta hout
    have hself := rowsNamed_Apply_self p w.db (newRelease (d.NameHashKey ++ "-" ++ g.clusterName)
      proj app (d.Spec.get "sha1") g.clusterName)
    have hkind : (newRelease (d.NameHashKey ++ "-" ++ g.clusterName) proj app
        (d.Spec.get "sha1") g.clusterName).Kind = "Release" := rfl
    have hkey : (newRelease (d.NameHashKey ++ "-" ++ g.clusterName) proj app
        (d.Spec.get "sha1") g.clusterName).NameHashKey =
          d.NameHashKey ++ "-" ++ g.clusterName := rfl
    rw [hkind, kindResource_Release, hkey] at hself
    have hsha : (newRelease (d.NameHashKey ++ "-" ++ g.clusterName) proj app
        (d.Spec.get "sha1") g.clusterName).Spec.get "sha1" = d.Spec.get "sha1" := by
      simp [newRelease, Spec.get, List.lookup]
    rw [List.replicate_succ, eventLoop_cons_returned _ _ _ _ _ _ _ hstep,
      deployLoop_upToDate p evalFilter g ad d proj app hproj happ htp hta n _
        (by simp [hself, releaseOutdated, hsha])]
    exact ⟨rfl, by simp, _, hself, hsha⟩

theorem release_idempotence_witness :
    ∃ applied : List Effect,
      (applied = [] ∨
        applied = [Effect.apply (newRelease
          ((exampleDeployment "abc").NameHashKey ++ "-" ++ exampleGateway.clusterName)
          "myproj" "app1" ((exampleDeployment "abc").Spec.get "sha1")
          exampleGateway.clusterName)]) ∧
      (eventLoop exampleGateway (dynamoStore exampleDB keepAll) workingAdapters
          (startWorld noTables)
          (List.replicate (2 + 1) (Event.deploys (exampleDeployment "abc")))).status =
        Status.returned ∧
      (eventLoop exampleGateway (dynamoStore exampleDB keepAll) workingAdapters
          (startWorld noTables)
          (List.replicate (2 + 1) (Event.deploys (exampleDeployment "abc")))).world.trace =
        (startWorld noTables).trace ++
          [Effect.getSync "release"
            ((exampleDeployment "abc").NameHashKey ++ "-" ++ exampleGateway.clusterName) []] ++
          applied ++
          List.replicate 2
            (Effect.getSync "release"
              ((exampleDeployment "abc").NameHashKey ++ "-" ++ exampleGateway.clusterName) []) ∧
      ∃ r, rowsNamed (eventLoop exampleGateway (dynamoStore exampleDB keepAll) workingAdapters
              (startWorld noTables)
              (List.replicate (2 + 1) (Event.deploys (exampleDeployment "abc")))).world.db
            (exampleDB.tableNameForResourceNamed "release")
            ((exampleDeployment "abc").NameHashKey ++ "-" ++ exampleGateway.clusterName) = [r] ∧
          r.Spec.get "sha1" = (exampleDeployment "abc").Spec.get "sha1" :=
  release_idempotence exampleDB keepAll exampleGateway workingAdapters (startWorld noTables)
    (exampleDeployment "abc") "myproj" "app1" (by decide) (by decide) (by decide) (by decide) 2

/-! ## The release rule -/

theorem releaseCase_exists (p : DynamoResourceDB)
    (evalFilter : String → List String → Resource → Bool)
    (applyImpl : Tables → Resource → Option GoError × Tables)
    (g : Gateway) (w : World Tables) (r : Resource) (proj app : String)
    (hproj : r.Spec.get "project" = Value.str proj) (happ : r.Spec.get "app" = Value.str app)
    (hcl : r.Spec.get "cluster" = Value.str g.clusterName)
    (htp : hasKey g.targetedProjects proj = true) (hta : hasKey g.targetedApps app = true)
    (hrows : rowsNamed w.db (p.tableNameForResourceNamed "install")
      (r.NameHashKey ++ "-" ++ fmtS (r.Spec.get "sha1")) ≠ []) :
    releaseCase g (dynamoStoreWith p evalFilter applyImpl) w r =
      ⟨w.record (Effect.getSync "install"
          (r.NameHashKey ++ "-" ++ fmtS (r.Spec.get "sha1")) []),
        Status.returned⟩ := by
  obtain ⟨e, hG, hne, -⟩ := GetSync_named p evalFilter w.db "install"
    (r.NameHashKey ++ "-" ++ fmtS (r.Spec.get "sha1")) (dash_name_ne_empty _ _)
  have hG2 : (dynamoStoreWith p evalFilter applyImpl).GetSync w.db "install"
      (r.NameHashKey ++ "-" ++ fmtS (r.Spec.get "sha1")) [] = _ := hG
  unfold releaseCase
  simp only [hproj, happ, hcl, Value.asString, htp, hta, hG2]
  rcases e with _ | e
  · simp [hrows]
  · cases e with
    | resourceNotFound m => simp [hrows]
    | other m => exact absurd rfl (hne m)

theorem releaseCase_absent (p : DynamoResourceDB)
    (evalFilter : String → List String → Resource → Bool)
    (applyImpl : Tables → Resource → Option GoError × Tables)
    (g : Gateway) (w : World Tables) (r : Resource) (proj app : String)
    (hproj : r.Spec.get "project" = Value.str proj) (happ : r.Spec.get "app" = Value.str app)
    (hcl : r.Spec.get "cluster" = Value.str g.clusterName)
    (htp : hasKey g.targetedProjects proj = true) (hta : hasKey g.targetedApps app = true)
    (hrows : rowsNamed w.db (p.tableNameForResourceNamed "install")
      (r.NameHashKey ++ "-" ++ fmtS (r.Spec.get "sha1")) = []) :
    releaseCase g (dynamoStoreWith p evalFilter applyImpl) w r =
      match (applyImpl w.db (newInstall (r.NameHashKey ++ "-" ++ fmtS (r.Spec.get "sha1"))
          proj app (r.Spec.get "sha1") g.clusterName)).1 with
      | some err =>
        ⟨{ db := (applyImpl w.db (newInstall (r.NameHashKey ++ "-" ++ fmtS (r.Spec.get "sha1"))
              proj app (r.Spec.get "sha1") g.clusterName)).2
           newInstalls := w.newInstalls
           trace := w.trace ++
             [Effect.getSync "install" (r.NameHashKey ++ "-" ++ fmtS (r.Spec.get "sha1")) [],
              Effect.apply (newInstall (r.NameHashKey ++ "-" ++ fmtS (r.Spec.get "sha1"))
                proj app (r.Spec.get "sha1") g.clusterName)] },
          Status.panic err.Error⟩
      | none =>
        sendNewInstall
          { db := (applyImpl w.db (newInstall (r.NameHashKey ++ "-" ++ fmtS (r.Spec.get "sha1"))
              proj app (r.Spec.get "sha1") g.clusterName)).2
            newInstalls := w.newInstalls
            trace := w.trace ++
              [Effect.getSync "install" (r.NameHashKey ++ "-" ++ fmtS (r.Spec.get "sha1")) [],
               Effect.apply (newInstall (r.NameHashKey ++ "-" ++ fmtS (r.Spec.get "sha1"))
                 proj app (r.Spec.get "sha1") g.clusterName)] }
          (newInstall (r.NameHashKey ++ "-" ++ fmtS (r.Spec.get "sha1"))
            proj app (r.Spec.get "sha1") g.clusterName) := by
  obtain ⟨e, hG, hne, -⟩ := GetSync_named p evalFilter w.db "install"
    (r.NameHashKey ++ "-" ++ fmtS (r.Spec.get "sha1")) (dash_name_ne_empty _ _)
  have hG2 : (dynamoStoreWith p evalFilter applyImpl).GetSync w.db "install"
      (r.NameHashKey ++ "-" ++ fmtS (r.Spec.get "sha1")) [] = _ := hG
  have hA : ∀ x, (dynamoStoreWith p evalFilter applyImpl).Apply w.db x = applyImpl w.db x :=
    fun _ => rfl
  unfold releaseCase
  simp only [hproj, happ, hcl, Value.asString, htp, hta, hG2]
  rcases e with _ | e
  · simp only [hrows, World.record, hA]
    simp
  · cases e with
    | resourceNotFound m =>
      simp only [hrows, World.record, hA]
      simp
    | other m => exact absurd rfl (hne m)

theorem releaseCase_untargeted {σ : Type} (g : Gateway) (db : Store σ) (w : World σ)
    (r : Resource)
    (hnot : ¬ ∃ proj app : String,
      r.Spec.get "project" = Value.str proj ∧ r.Spec.get "app" = Value.str app ∧
      r.Spec.get "cluster" = Value.str g.clusterName ∧
      hasKey g.targetedProjects proj = true ∧ hasKey g.targetedApps app = true) :
    (releaseCase g db w r).world = w := by
  unfold releaseCase
  cases hp : r.Spec.get "project" with
  | null => simp [Value.asString]
  | bool b => simp [Value.asString]
  | str proj =>
    cases ha : r.Spec.get "app" with
    | null => simp [Value.asString]
    | bool b => simp [Value.asString]
    | str app =>
      cases hc : r.Spec.get "cluster" with
      | null => simp [Value.asString]
      | bool b => simp [Value.asString]
      | str cl =>
        have hnt : (hasKey g.targetedProjects proj && hasKey g.targetedApps app
            && decide (cl = g.clusterName)) = false := by
          by_contra hcon
          simp only [Bool.not_eq_false, Bool.and_eq_true, decide_eq_true_eq] at hcon
          exact hnot ⟨proj, app, hp, ha, by rw [hc, hcon.2], hcon.1.1, hcon.1.2⟩
        simp [Value.asString, hnt]

/-- C3. Release rule, over the lookups of `dynamodb/get.go` on any state of the backend
tables, with the `Apply` of the spec.  For a release whose `project`, `app` and `cluster`
match the targets, the handler makes exactly one lookup, of the install
`<r.NameHashKey>-<r.Spec.sha1>`.  When no install of that name is stored it makes
exactly one `Apply`, of the resource with that `NameHashKey` and `Metadata.Name`, kind
`Install` and the five-key `Spec` with phase `pending`, and then sends that same
resource on `newInstalls` (it is the content of the buffer afterwards when the buffer
was empty).  When an install of that name is stored, whatever its phase, there is no
`Apply` and no send.  A release that does not match causes no lookup, no `Apply` and no
send. -/
theorem release_rule (p : DynamoResourceDB)
    (evalFilter : String → List String → Resource → Bool)
    (g : Gateway) (w : World Tables) (r : Resource) :
    (∀ proj app : String,
      r.Spec.get "project" = Value.str proj → r.Spec.get "app" = Value.str app →
      r.Spec.get "cluster" = Value.str g.clusterName →
      hasKey g.targetedProjects proj = true → hasKey g.targetedApps app = true →
      (rowsNamed w.db (p.tableNameForResourceNamed "install")
          (r.NameHashKey ++ "-" ++ fmtS (r.Spec.get "sha1")) = [] →
        (releaseCase g (dynamoStore p evalFilter) w r).world.trace =
          w.trace ++
            [Effect.getSync "install" (r.NameHashKey ++ "-" ++ fmtS (r.Spec.get "sha1")) [],
             Effect.apply
               { NameHashKey := r.NameHashKey ++ "-" ++ fmtS (r.Spec.get "sha1")
                 Metadata := { Name := r.NameHashKey ++ "-" ++ fmtS (r.Spec.get "sha1"),
                               Labels := [] }
                 Kind := "Install"
                 Spec := [("project", Value.str proj), ("app", Value.str app),
                          ("sha1", r.Spec.get "sha1"), ("cluster", Value.str g.clusterName),
                          ("phase", Value.str "pending")] },
             Effect.push
               { NameHashKey := r.NameHashKey ++ "-" ++ fmtS (r.Spec.get "sha1")
                 Metadata := { Name := r.NameHashKey ++ "-" ++ fmtS (r.Spec.get "sha1"),
                               Labels := [] }
                 Kind := "Install"
                 Spec := [("project", Value.str proj), ("app", Value.str app),
                          ("sha1", r.Spec.get "sha1"), ("cluster", Value.str g.clusterName),
                          ("phase", Value.str "pending")] }] ∧
        (w.newInstalls = [] →
          (releaseCase g (dynamoStore p evalFilter) w r).status = Status.returned ∧
          (releaseCase g (dynamoStore p evalFilter) w r).world.newInstalls =
            [{ NameHashKey := r.NameHashKey ++ "-" ++ fmtS (r.Spec.get "sha1")
               Metadata := { Name := r.NameHashKey ++ "-" ++ fmtS (r.Spec.get "sha1"),
                             Labels := [] }
               Kind := "Install"
               Spec := [("project", Value.str proj), ("app", Value.str app),
                        ("sha1", r.Spec.get "sha1"), ("cluster", Value.str g.clusterName),
                        ("phase", Value.str "pending")] }])) ∧
      (rowsNamed w.db (p.tableNameForResourceNamed "install")
          (r.NameHashKey ++ "-" ++ fmtS (r.Spec.get "sha1")) ≠ [] →
        releaseCase g (dynamoStore p evalFilter) w r =
          ⟨w.record (Effect.getSync "install"
              (r.NameHashKey ++ "-" ++ fmtS (r.Spec.get "sha1")) []),
            Status.returned⟩)) ∧
    ((¬ ∃ proj app : String,
        r.Spec.get "project" = Value.str proj ∧ r.Spec.get "app" = Value.str app ∧
        r.Spec.get "cluster" = Value.str g.clusterName ∧
        hasKey g.targetedProjects proj = true ∧ hasKey g.targetedApps app = true) →
      (releaseCase g (dynamoStore p evalFilter) w r).world = w) := by
  refine ⟨?_, releaseCase_untargeted g _ w r⟩
  intro proj app hproj happ hcl htp hta
  refine ⟨?_, releaseCase_exists p evalFilter (Apply p) g w r proj app hproj happ hcl htp hta⟩
  intro hrows
  have hrun := releaseCase_absent p evalFilter (Apply p) g w r proj app hproj happ hcl htp hta
    hrows
  have hok : ∀ x, (Apply p w.db x).1 = none := fun _ => rfl
  simp only [hok, newInstall] at hrun
  have hrun2 : releaseCase g (dynamoStore p evalFilter) w r = _ := hrun
  rw [hrun2]
  refine ⟨?_, ?_⟩
  · simp only [sendNewInstall, World.record]
    split <;> simp
  · intro hbuf
    simp [sendNewInstall, World.record, hbuf, newInstallsCapacity]

theorem release_rule_witness :
    (releaseCase exampleGateway (dynamoStore exampleDB keepAll)
        (startWorld noTables) (exampleRelease "abc")).world.trace =
      (startWorld noTables).trace ++
        [Effect.getSync "install" ((exampleRelease "abc").NameHashKey ++ "-" ++
            fmtS ((exampleRelease "abc").Spec.get "sha1")) [],
         Effect.apply
           { NameHashKey := ((exampleRelease "abc").NameHashKey ++ "-" ++
               fmtS ((exampleRelease "abc").Spec.get "sha1"))
             Metadata := { Name := ((exampleRelease "abc").NameHashKey ++ "-" ++
               fmtS ((exampleRelease "abc").Spec.get "sha1")), Labels := [] }
             Kind := "Install"
             Spec := [("project", Value.str "myproj"), ("app", Value.str "app1"),
                      ("sha1", (exampleRelease "abc").Spec.get "sha1"),
                      ("cluster", Value.str exampleGateway.clusterName),
                      ("phase", Value.str "pending")] },
         Effect.push
           { NameHashKey := ((exampleRelease "abc").NameHashKey ++ "-" ++
               fmtS ((exampleRelease "abc").Spec.get "sha1"))
             Metadata := { Name := ((exampleRelease "abc").NameHashKey ++ "-" ++
               fmtS ((exampleRelease "abc").Spec.get "sha1")), Labels := [] }
             Kind := "Install"
             Spec := [("project", Value.str "myproj"), ("app", Value.str "app1"),
                      ("sha1", (exampleRelease "abc").Spec.get "sha1"),
                      ("cluster", Value.str exampleGateway.clusterName),
                      ("phase", Value.str "pending")] }] :=
  (((release_rule exampleDB keepAll exampleGateway (startWorld noTables)
      (exampleRelease "abc")).1 "myproj" "app1" (by decide) (by decide) (by decide)
      (by decide) (by decide)).1 rfl).1

/-! ## Installs are append-only by content -/

theorem sendNewInstall_db {σ : Type} (w : World σ) (i : Resource) :
    (sendNewInstall w i).world.db = w.db := by
  unfold sendNewInstall
  simp only [World.record]
  split <;> rfl

theorem sendNewInstall_trace {σ : Type} (w : World σ) (i : Resource) :
    (sendNewInstall w i).world.trace = w.trace ++ [Effect.push i] := by
  unfold sendNewInstall
  simp only [World.record]
  split <;> rfl

theorem releaseCase_fresh (p : DynamoResourceDB)
    (evalFilter : String → List String → Resource → Bool)
    (g : Gateway) (w : World Tables) (r : Resource) (proj app : String)
    (hproj : r.Spec.get "project" = Value.str proj) (happ : r.Spec.get "app" = Value.str app)
    (hcl : r.Spec.get "cluster" = Value.str g.clusterName)
    (htp : hasKey g.targetedProjects proj = true) (hta : hasKey g.targetedApps app = true)
    (hrows : rowsNamed w.db (p.tableNameForResourceNamed "install")
      (r.NameHashKey ++ "-" ++ fmtS (r.Spec.get "sha1")) = []) :
    (releaseCase g (dynamoStore p evalFilter) w r).world.db =
        (Apply p w.db (newInstall (r.NameHashKey ++ "-" ++ fmtS (r.Spec.get "sha1"))
          proj app (r.Spec.get "sha1") g.clusterName)).2 ∧
      (releaseCase g (dynamoStore p evalFilter) w r).world.trace =
        w.trace ++
          [Effect.getSync "install" (r.NameHashKey ++ "-" ++ fmtS (r.Spec.get "sha1")) [],
           Effect.apply (newInstall (r.NameHashKey ++ "-" ++ fmtS (r.Spec.get "sha1"))
             proj app (r.Spec.get "sha1") g.clusterName),
           Effect.push (newInstall (r.NameHashKey ++ "-" ++ fmtS (r.Spec.get "sha1"))
             proj app (r.Spec.get "sha1") g.clusterName)] := by
  have hrun := releaseCase_absent p evalFilter (Apply p) g w r proj app hproj happ hcl htp hta
    hrows
  have hok : ∀ x, (Apply p w.db x).1 = none := fun _ => rfl
  simp only [hok] at hrun
  have hrun2 : releaseCase g (dynamoStore p evalFilter) w r = _ := hrun
  rw [hrun2, sendNewInstall_db, sendNewInstall_trace]
  simp

theorem rowsNamed_Apply_newInstall (p : DynamoResourceDB) (tables : Tables)
    (name proj app : String) (sha1 : Value) (cluster : String) :
    rowsNamed (Apply p tables (newInstall name proj app sha1 cluster)).2
      (p.tableNameForResourceNamed "install") name =
        [newInstall name proj app sha1 cluster] := by
  have h := rowsNamed_Apply_self p tables (newInstall name proj app sha1 cluster)
  have hkind : (newInstall name proj app sha1 cluster).Kind = "Install" := rfl
  have hkey : (newInstall name proj app sha1 cluster).NameHashKey = name := rfl
  rw [hkind, kindResource_Install, hkey] at h
  exact h

theorem releaseCase_keeps (p : DynamoResourceDB)
    (evalFilter : String → List String → Resource → Bool)
    (g : Gateway) (w : World Tables) (r : Resource) (table name : String)
    (hstored : rowsNamed w.db (p.tableNameForResourceNamed "install") name ≠ []) :
    rowsNamed (releaseCase g (dynamoStore p evalFilter) w r).world.db table name =
      rowsNamed w.db table name := by
  by_cases ht : ∃ proj app : String,
      r.Spec.get "project" = Value.str proj ∧ r.Spec.get "app" = Value.str app ∧
      r.Spec.get "cluster" = Value.str g.clusterName ∧
      hasKey g.targetedProjects proj = true ∧ hasKey g.targetedApps app = true
  · obtain ⟨proj, app, hproj, happ, hcl, htp, hta⟩ := ht
    by_cases hrows : rowsNamed w.db (p.tableNameForResourceNamed "install")
        (r.NameHashKey ++ "-" ++ fmtS (r.Spec.get "sha1")) = []
    · rw [(releaseCase_fresh p evalFilter g w r proj app hproj happ hcl htp hta hrows).1]
      apply rowsNamed_Apply_other
      intro heq
      apply hstored
      rw [← heq]
      exact hrows
    · have hrun : releaseCase g (dynamoStore p evalFilter) w r = _ :=
        releaseCase_exists p evalFilter (Apply p) g w r proj app hproj happ hcl htp hta hrows
      rw [hrun]
      rfl
  · rw [releaseCase_untargeted g _ w r ht]

theorem dash_name_injective (a s1 s2 : String) (h : a ++ "-" ++ s1 = a ++ "-" ++ s2) :
    s1 = s2 := by
  have hd := congrArg String.data h
  simp only [String.data_append, List.append_assoc, List.append_cancel_left_eq] at hd
  exact String.ext hd

theorem releaseCase_other_name (p : DynamoResourceDB)
    (evalFilter : String → List String → Resource → Bool)
    (g : Gateway) (w : World Tables) (r : Resource) (table name : String)
    (hname : r.NameHashKey ++ "-" ++ fmtS (r.Spec.get "sha1") ≠ name) :
    rowsNamed (releaseCase g (dynamoStore p evalFilter) w r).world.db table name =
      rowsNamed w.db table name := by
  by_cases ht : ∃ proj app : String,
      r.Spec.get "project" = Value.str proj ∧ r.Spec.get "app" = Value.str app ∧
      r.Spec.get "cluster" = Value.str g.clusterName ∧
      hasKey g.targetedProjects proj = true ∧ hasKey g.targetedApps app = true
  · obtain ⟨proj, app, hproj, happ, hcl, htp, hta⟩ := ht
    by_cases hrows : rowsNamed w.db (p.tableNameForResourceNamed "install")
        (r.NameHashKey ++ "-" ++ fmtS (r.Spec.get "sha1")) = []
    · rw [(releaseCase_fresh p evalFilter g w r proj app hproj happ hcl htp hta hrows).1]
      exact rowsNamed_Apply_other p w.db _ table name hname
    · have hrun : releaseCase g (dynamoStore p evalFilter) w r = _ :=
        releaseCase_exists p evalFilter (Apply p) g w r proj app hproj happ hcl htp hta hrows
      rw [hrun]
      rfl
  · rw [releaseCase_untargeted g _ w r ht]

theorem releaseCase_stored (p : DynamoResourceDB)
    (evalFilter : String → List String → Resource → Bool)
    (g : Gateway) (w : World Tables) (r : Resource) (proj app : String)
    (hproj : r.Spec.get "project" = Value.str proj) (happ : r.Spec.get "app" = Value.str app)
    (hcl : r.Spec.get "cluster" = Value.str g.clusterName)
    (htp : hasKey g.targetedProjects proj = true) (hta : hasKey g.targetedApps app = true) :
    ∃ i, rowsNamed (releaseCase g (dynamoStore p evalFilter) w r).world.db
      (p.tableNameForResourceNamed "install")
      (r.NameHashKey ++ "-" ++ fmtS (r.Spec.get "sha1")) = [i] := by
  cases hrows : rowsNamed w.db (p.tableNameForResourceNamed "install")
      (r.NameHashKey ++ "-" ++ fmtS (r.Spec.get "sha1")) with
  | nil =>
    rw [(releaseCase_fresh p evalFilter g w r proj app hproj happ hcl htp hta hrows).1]
    exact ⟨_, rowsNamed_Apply_newInstall p w.db _ proj app _ _⟩
  | cons i rest =>
    have hne : rowsNamed w.db (p.tableNameForResourceNamed "install")
        (r.NameHashKey ++ "-" ++ fmtS (r.Spec.get "sha1")) ≠ [] := by simp [hrows]
    have hrun : releaseCase g (dynamoStore p evalFilter) w r = _ :=
      releaseCase_exists p evalFilter (Apply p) g w r proj app hproj happ hcl htp hta hne
    rw [hrun]
    have hrest := rowsNamed_tail_nil _ _ _ _ _ hrows
    subst hrest
    exact ⟨i, hrows⟩

/-- C4, as amended. Installs are append-only by the printed content hash, over the store
whose `Apply` is an upsert by `NameHashKey` that `GetSync` observes.  Two images `r1`,
`r2` of one targeted release carry any two `sha1` values; the second is handled on the
store that the first left, whatever the channel then holds.  After the first event
exactly one install `<name>-<sha1 of r1>` is stored, and it was applied by that event
when none was stored before.  When `%s` prints the two `sha1` values alike, as it does
for equal values, the second event makes its lookup and no `Apply`.  When it prints
them differently, as it does for two different strings, the two install names differ
and after the second event one install is stored under each; from a store holding
neither install, each event applies its own install.  In every case an install stored
before the second event is the same row after it. -/
theorem install_append_only (p : DynamoResourceDB)
    (evalFilter : String → List String → Resource → Bool)
    (g : Gateway) (w : World Tables) (buf : List Resource) (tr : List Effect)
    (r1 r2 : Resource) (proj app : String)
    (hkey : r2.NameHashKey = r1.NameHashKey)
    (h1p : r1.Spec.get "project" = Value.str proj) (h1a : r1.Spec.get "app" = Value.str app)
    (h1c : r1.Spec.get "cluster" = Value.str g.clusterName)
    (h2p : r2.Spec.get "project" = Value.str proj) (h2a : r2.Spec.get "app" = Value.str app)
    (h2c : r2.Spec.get "cluster" = Value.str g.clusterName)
    (htp : hasKey g.targetedProjects proj = true) (hta : hasKey g.targetedApps app = true) :
    (∃ i, rowsNamed (releaseCase g (dynamoStore p evalFilter) w r1).world.db
        (p.tableNameForResourceNamed "install")
        (r1.NameHashKey ++ "-" ++ fmtS (r1.Spec.get "sha1")) = [i]) ∧
    (rowsNamed w.db (p.tableNameForResourceNamed "install")
        (r1.NameHashKey ++ "-" ++ fmtS (r1.Spec.get "sha1")) = [] →
      (releaseCase g (dynamoStore p evalFilter) w r1).world.trace =
        w.trace ++
          [Effect.getSync "install" (r1.NameHashKey ++ "-" ++ fmtS (r1.Spec.get "sha1")) [],
           Effect.apply (newInstall (r1.NameHashKey ++ "-" ++ fmtS (r1.Spec.get "sha1"))
             proj app (r1.Spec.get "sha1") g.clusterName),
           Effect.push (newInstall (r1.NameHashKey ++ "-" ++ fmtS (r1.Spec.get "sha1"))
             proj app (r1.Spec.get "sha1") g.clusterName)]) ∧
    (fmtS (r1.Spec.get "sha1") = fmtS (r2.Spec.get "sha1") →
      releaseCase g (dynamoStore p evalFilter)
          { db := (releaseCase g (dynamoStore p evalFilter) w r1).world.db
            newInstalls := buf, trace := tr } r2 =
        ⟨{ db := (releaseCase g (dynamoStore p evalFilter) w r1).world.db
           newInstalls := buf
           trace := tr ++ [Effect.getSync "install"
             (r1.NameHashKey ++ "-" ++ fmtS (r1.Spec.get "sha1")) []] },
          Status.returned⟩) ∧
    (fmtS (r1.Spec.get "sha1") ≠ fmtS (r2.Spec.get "sha1") →
      r1.NameHashKey ++ "-" ++ fmtS (r1.Spec.get "sha1") ≠
        r1.NameHashKey ++ "-" ++ fmtS (r2.Spec.get "sha1") ∧
      (∃ i1 i2,
        rowsNamed (releaseCase g (dynamoStore p evalFilter)
            { db := (releaseCase g (dynamoStore p evalFilter) w r1).world.db
              newInstalls := buf, trace := tr } r2).world.db
          (p.tableNameForResourceNamed "install")
          (r1.NameHashKey ++ "-" ++ fmtS (r1.Spec.get "sha1")) = [i1] ∧
        rowsNamed (releaseCase g (dynamoStore p evalFilter)
            { db := (releaseCase g (dynamoStore p evalFilter) w r1).world.db
              newInstalls := buf, trace := tr } r2).world.db
          (p.tableNameForResourceNamed "install")
          (r1.NameHashKey ++ "-" ++ fmtS (r2.Spec.get "sha1")) = [i2]) ∧
      (rowsNamed w.db (p.tableNameForResourceNamed "install")
          (r1.NameHashKey ++ "-" ++ fmtS (r1.Spec.get "sha1")) = [] →
        rowsNamed w.db (p.tableNameForResourceNamed "install")
          (r1.NameHashKey ++ "-" ++ fmtS (r2.Spec.get "sha1")) = [] →
        (releaseCase g (dynamoStore p evalFilter)
            { db := (releaseCase g (dynamoStore p evalFilter) w r1).world.db
              newInstalls := buf, trace := tr } r2).world.trace =
          tr ++
            [Effect.getSync "install" (r1.NameHashKey ++ "-" ++ fmtS (r2.Spec.get "sha1")) [],
             Effect.apply (newInstall (r1.NameHashKey ++ "-" ++ fmtS (r2.Spec.get "sha1"))
               proj app (r2.Spec.get "sha1") g.clusterName),
             Effect.push (newInstall (r1.NameHashKey ++ "-" ++ fmtS (r2.Spec.get "sha1"))
               proj app (r2.Spec.get "sha1") g.clusterName)] ∧
        rowsNamed (releaseCase g (dynamoStore p evalFilter)
            { db := (releaseCase g (dynamoStore p evalFilter) w r1).world.db
              newInstalls := buf, trace := tr } r2).world.db
          (p.tableNameForResourceNamed "install")
          (r1.NameHashKey ++ "-" ++ fmtS (r1.Spec.get "sha1")) =
            [newInstall (r1.NameHashKey ++ "-" ++ fmtS (r1.Spec.get "sha1")) proj app
              (r1.Spec.get "sha1") g.clusterName] ∧
        rowsNamed (releaseCase g (dynamoStore p evalFilter)
            { db := (releaseCase g (dynamoStore p evalFilter) w r1).world.db
              newInstalls := buf, trace := tr } r2).world.db
          (p.tableNameForResourceNamed "install")
          (r1.NameHashKey ++ "-" ++ fmtS (r2.Spec.get "sha1")) =
            [newInstall (r1.NameHashKey ++ "-" ++ fmtS (r2.Spec.get "sha1")) proj app
              (r2.Spec.get "sha1") g.clusterName])) ∧
    (∀ name : String,
      rowsNamed (releaseCase g (dynamoStore p evalFilter) w r1).world.db
        (p.tableNameForResourceNamed "install") name ≠ [] →
      rowsNamed (releaseCase g (dynamoStore p evalFilter)
          { db := (releaseCase g (dynamoStore p evalFilter) w r1).world.db
            newInstalls := buf, trace := tr } r2).world.db
        (p.tableNameForResourceNamed "install") name =
      rowsNamed (releaseCase g (dynamoStore p evalFilter) w r1).world.db
        (p.tableNameForResourceNamed "install") name) ∧
    (r1.Spec.get "sha1" = r2.Spec.get "sha1" →
      fmtS (r1.Spec.get "sha1") = fmtS (r2.Spec.get "sha1")) ∧
    (∀ s1 s2 : String, r1.Spec.get "sha1" = Value.str s1 → r2.Spec.get "sha1" = Value.str s2 →
      s1 ≠ s2 → fmtS (r1.Spec.get "sha1") ≠ fmtS (r2.Spec.get "sha1")) := by
  have hx2 : r2.NameHashKey ++ "-" ++ fmtS (r2.Spec.get "sha1") =
      r1.NameHashKey ++ "-" ++ fmtS (r2.Spec.get "sha1") := by
    rw [hkey]
  have hstored := releaseCase_stored p evalFilter g w r1 proj app h1p h1a h1c htp hta
  have hfresh1 : rowsNamed w.db (p.tableNameForResourceNamed "install")
      (r1.NameHashKey ++ "-" ++ fmtS (r1.Spec.get "sha1")) = [] → _ := fun h =>
    releaseCase_fresh p evalFilter g w r1 proj app h1p h1a h1c htp hta h
  refine ⟨hstored, fun h => (hfresh1 h).2, ?_, ?_, ?_, ?_, ?_⟩
  · intro heq
    obtain ⟨i, hi⟩ := hstored
    have hrun := releaseCase_exists p evalFilter (Apply p) g
      { db := (releaseCase g (dynamoStore p evalFilter) w r1).world.db
        newInstalls := buf, trace := tr } r2 proj app h2p h2a h2c htp hta
      (by rw [hx2, ← heq]; simp [hi])
    rw [hx2, ← heq] at hrun
    exact hrun
  · intro hne
    have hnames : r1.NameHashKey ++ "-" ++ fmtS (r1.Spec.get "sha1") ≠
        r1.NameHashKey ++ "-" ++ fmtS (r2.Spec.get "sha1") :=
      fun h => hne (dash_name_injective _ _ _ h)
    have hstored2 := releaseCase_stored p evalFilter g
      { db := (releaseCase g (dynamoStore p evalFilter) w r1).world.db
        newInstalls := buf, trace := tr } r2 proj app h2p h2a h2c htp hta
    rw [hx2] at hstored2
    obtain ⟨i1, hi1⟩ := hstored
    obtain ⟨i2, hi2⟩ := hstored2
    refine ⟨hnames, ⟨i1, i2, ?_, hi2⟩, ?_⟩
    · rw [releaseCase_keeps p evalFilter g _ r2 _ _ (by simp [hi1])]
      exact hi1
    intro habs1 habs2
    have hdb1 := (hfresh1 habs1).1
    have habs2' : rowsNamed (releaseCase g (dynamoStore p evalFilter) w r1).world.db
        (p.tableNameForResourceNamed "install")
        (r1.NameHashKey ++ "-" ++ fmtS (r2.Spec.get "sha1")) = [] := by
      rw [releaseCase_other_name p evalFilter g w r1 _ _ hnames]
      exact habs2
    have hfresh2 := releaseCase_fresh p evalFilter g
      { db := (releaseCase g (dynamoStore p evalFilter) w r1).world.db
        newInstalls := buf, trace := tr } r2 proj app h2p h2a h2c htp hta
      (by rw [hx2]; exact habs2')
    rw [hx2] at hfresh2
    refine ⟨hfresh2.2, ?_, ?_⟩
    · rw [hfresh2.1, rowsNamed_Apply_other p _ _ _ _ (fun h => hnames h.symm), hdb1]
      exact rowsNamed_Apply_newInstall p w.db _ proj app _ _
    · rw [hfresh2.1]
      exact rowsNamed_Apply_newInstall p _ _ proj app _ _
  · intro name hname
    exact releaseCase_keeps p evalFilter g _ r2 _ name hname
  · intro h
    rw [h]
  · intro s1 s2 h1 h2 hne
    rw [h1, h2]
    exact hne

theorem install_append_only_witness :
    (releaseCase exampleGateway (dynamoStore exampleDB keepAll)
        { db := (releaseCase exampleGateway (dynamoStore exampleDB keepAll)
            (startWorld noTables) (exampleRelease "abc")).world.db
          newInstalls := [], trace := [] } (exampleRelease "def")).world.trace =
      [] ++
        [Effect.getSync "install" ((exampleRelease "abc").NameHashKey ++ "-" ++
            fmtS ((exampleRelease "def").Spec.get "sha1")) [],
         Effect.apply (newInstall ((exampleRelease "abc").NameHashKey ++ "-" ++
             fmtS ((exampleRelease "def").Spec.get "sha1"))
           "myproj" "app1" ((exampleRelease "def").Spec.get "sha1")
           exampleGateway.clusterName),
         Effect.push (newInstall ((exampleRelease "abc").NameHashKey ++ "-" ++
             fmtS ((exampleRelease "def").Spec.get "sha1"))
           "myproj" "app1" ((exampleRelease "def").Spec.get "sha1")
           exampleGateway.clusterName)] :=
  (((install_append_only exampleDB keepAll exampleGateway (startWorld noTables) [] []
      (exampleRelease "abc") (exampleRelease "def") "myproj" "app1" rfl
      (by decide) (by decide) (by decide) (by decide) (by decide) (by decide)
      (by decide) (by decide)).2.2.2.1 (by decide)).2.2 rfl rfl).1

/-- C4, counterexample. Two images of the targeted release `app1-prod1` with different
`sha1` values: the first has no `sha1`, the second has the string that `%s` prints for
nil.  Both install names are `app1-prod1-%!s(<nil>)`: the first event applies that
install, and the second event, handled on the store the first left, makes its lookup
and no `Apply`, so the two events give one install. -/
theorem nil_and_printed_nil_share_an_install :
    releaseWithoutSha1.Spec.get "sha1" = Value.null ∧
    (exampleRelease "%!s(<nil>)").Spec.get "sha1" = Value.str "%!s(<nil>)" ∧
    (releaseCase exampleGateway (dynamoStore exampleDB keepAll) (startWorld noTables)
        releaseWithoutSha1).world.trace =
      [Effect.getSync "install" "app1-prod1-%!s(<nil>)" [],
       Effect.apply (newInstall "app1-prod1-%!s(<nil>)" "myproj" "app1" Value.null "prod1"),
       Effect.push (newInstall "app1-prod1-%!s(<nil>)" "myproj" "app1" Value.null "prod1")] ∧
    (releaseCase exampleGateway (dynamoStore exampleDB keepAll)
        { db := (releaseCase exampleGateway (dynamoStore exampleDB keepAll)
            (startWorld noTables) releaseWithoutSha1).world.db
          newInstalls := [], trace := [] } (exampleRelease "%!s(<nil>)")).world.trace =
      [Effect.getSync "install" "app1-prod1-%!s(<nil>)" []] ∧
    (releaseCase exampleGateway (dynamoStore exampleDB keepAll)
        { db := (releaseCase exampleGateway (dynamoStore exampleDB keepAll)
            (startWorld noTables) releaseWithoutSha1).world.db
          newInstalls := [], trace := [] } (exampleRelease "%!s(<nil>)")).status =
      Status.returned := by
  refine ⟨?_, ?_, ?_, ?_, ?_⟩ <;> rfl

/-! ## The pending transition -/

theorem Spec.get_set_self (m : Spec) (k : String) (v : Value) :
    Spec.get (Spec.set m k v) k = v := by
  induction m with
  | nil => simp [Spec.set, Spec.get, List.lookup]
  | cons kv rest ih =>
    obtain ⟨k0, v0⟩ := kv
    by_cases h : k0 = k
    · simp [Spec.set, h, Spec.get, List.lookup]
    · have hb : (k == k0) = false := by
        simp only [beq_eq_false_iff_ne, ne_eq]
        exact fun hc => h hc.symm
      simp only [Spec.set, h, if_false]
      simp only [Spec.get, List.lookup, hb] at ih ⊢
      exact ih

theorem Spec.get_set_other (m : Spec) (k k1 : String) (v : Value) (hne : k1 ≠ k) :
    Spec.get (Spec.set m k v) k1 = Spec.get m k1 := by
  induction m with
  | nil =>
    have hb : (k1 == k) = false := by simpa using hne
    simp [Spec.set, Spec.get, List.lookup, hb]
  | cons kv rest ih =>
    obtain ⟨k0, v0⟩ := kv
    by_cases h : k0 = k
    · subst h
      have hb : (k1 == k0) = false := by simpa using hne
      simp [Spec.set, Spec.get, List.lookup, hb]
    · simp only [Spec.set, h, if_false]
      by_cases h1 : k1 = k0
      · subst h1
        simp [Spec.get, List.lookup]
      · have hb : (k1 == k0) = false := by simpa using h1
        simp only [Spec.get, List.lookup, hb] at ih ⊢
        exact ih

theorem handleInstall_pending {σ : Type} (g : Gateway) (db : Store σ) (ad : Adapters)
    (w : World σ) (i : Resource) (proj app : String)
    (hproj : i.Spec.get "project" = Value.str proj) (happ : i.Spec.get "app" = Value.str app)
    (hcl : i.Spec.get "cluster" = Value.str g.clusterName)
    (htp : hasKey g.targetedProjects proj = true) (hta : hasKey g.targetedApps app = true)
    (hphase : i.Spec.get "phase" = Value.str "pending") :
    handleInstall g db ad w i = handlePending g db ad w i proj app := by
  unfold handleInstall
  simp [hproj, happ, hcl, Value.asString, htp, hta, hphase]

/-- C5, as amended. Pending transition, for any store and any collaborators.  For a
targeted install `i` with phase `pending` whose `sha1` is a string, when the log sink
and the runner are obtained and both `Apply` calls return no error, `handleInstall`
returns normally after exactly these calls, in this order: the log sink, the runner,
`Apply` of `i` with phase `running`, one `SendScript`, `Apply` of `i` with phase
`completed` when `SendScript` returned no error and `failed` when it returned one.  The
two applied resources differ from `i` in the phase only, and neither has phase
`pending`.  When `sha1` is not a string the type assertion panics before any call. -/
theorem pending_transition {σ : Type} (g : Gateway) (db : Store σ) (ad : Adapters)
    (w : World σ) (i : Resource) (proj app : String)
    (hproj : i.Spec.get "project" = Value.str proj) (happ : i.Spec.get "app" = Value.str app)
    (hcl : i.Spec.get "cluster" = Value.str g.clusterName)
    (htp : hasKey g.targetedProjects proj = true) (hta : hasKey g.targetedApps app = true)
    (hphase : i.Spec.get "phase" = Value.str "pending") :
    (∀ sha1 : String, i.Spec.get "sha1" = Value.str sha1 →
      ad.logsWriter "install" i.NameHashKey = none →
      ad.newDelegatedRunner "default" = none →
      (db.Apply w.db (withPhase i "running")).1 = none →
      (db.Apply (db.Apply w.db (withPhase i "running")).2
        (withPhase (withPhase i "running")
          (postPhase (ad.sendScript (installCall g proj app sha1))))).1 = none →
      (handleInstall g db ad w i).status = Status.returned ∧
      (handleInstall g db ad w i).world.trace =
        w.trace ++
          [Effect.logsWriter "install" i.NameHashKey,
           Effect.newDelegatedRunner "default",
           Effect.apply (withPhase i "running"),
           Effect.sendScript (installCall g proj app sha1),
           Effect.apply (withPhase (withPhase i "running")
             (postPhase (ad.sendScript (installCall g proj app sha1))))] ∧
      (withPhase i "running").Spec.get "phase" = Value.str "running" ∧
      (ad.sendScript (installCall g proj app sha1) = none →
        (withPhase (withPhase i "running")
          (postPhase (ad.sendScript (installCall g proj app sha1)))).Spec.get "phase" =
            Value.str "completed") ∧
      (ad.sendScript (installCall g proj app sha1) ≠ none →
        (withPhase (withPhase i "running")
          (postPhase (ad.sendScript (installCall g proj app sha1)))).Spec.get "phase" =
            Value.str "failed") ∧
      (∀ phase, (withPhase i phase).NameHashKey = i.NameHashKey ∧
        (withPhase i phase).Metadata = i.Metadata ∧ (withPhase i phase).Kind = i.Kind ∧
        ∀ k, k ≠ "phase" → (withPhase i phase).Spec.get k = i.Spec.get k)) ∧
    ((i.Spec.get "sha1").asString = none →
      handleInstall g db ad w i = ⟨w, Status.panic assertionPanic⟩) := by
  rw [handleInstall_pending g db ad w i proj app hproj happ hcl htp hta hphase]
  refine ⟨?_, ?_⟩
  · intro sha1 hsha hlog hrun hA1 hA2
    refine ⟨?_, ?_, ?_, ?_, ?_, ?_⟩
    · simp [handlePending, hsha, Value.asString, hlog, hrun, hA1, hA2, World.record]
    · simp [handlePending, hsha, Value.asString, hlog, hrun, hA1, hA2, World.record]
    · exact Spec.get_set_self _ _ _
    · intro hok
      rw [hok]
      exact Spec.get_set_self _ _ _
    · intro herr
      cases hs : ad.sendScript (installCall g proj app sha1) with
      | none => exact absurd hs herr
      | some e => exact Spec.get_set_self _ _ _
    · intro phase
      exact ⟨rfl, rfl, rfl, fun k hk => Spec.get_set_other _ _ _ _ hk⟩
  · intro hsha
    simp [handlePending, hsha]

theorem pending_transition_witness :
    (handleInstall exampleGateway (dynamoStore exampleDB keepAll) workingAdapters
        (startWorld noTables)
        (exampleInstall [("project", Value.str "myproj"), ("app", Value.str "app1"),
          ("sha1", Value.str "abc"), ("cluster", Value.str "prod1"),
          ("phase", Value.str "pending")])).status = Status.returned :=
  ((pending_transition exampleGateway (dynamoStore exampleDB keepAll) workingAdapters
      (startWorld noTables)
      (exampleInstall [("project", Value.str "myproj"), ("app", Value.str "app1"),
        ("sha1", Value.str "abc"), ("cluster", Value.str "prod1"),
        ("phase", Value.str "pending")])
      "myproj" "app1" (by decide) (by decide) (by decide) (by decide) (by decide)
      (by decide)).1 "abc" (by decide) rfl rfl rfl rfl).1

/-- C5, counterexample. A targeted install with phase `pending` and no `sha1`, with
working collaborators and a store whose `Apply` never fails: `handleInstall` panics
and has made no call at all, so no `Apply` with phase `running` took place. -/
theorem pending_without_sha1_panics :
    (handleInstall exampleGateway (dynamoStore exampleDB keepAll) workingAdapters
        (startWorld noTables)
        (exampleInstall [("project", Value.str "myproj"), ("app", Value.str "app1"),
          ("cluster", Value.str "prod1"), ("phase", Value.str "pending")])).status =
      Status.panic assertionPanic ∧
    (handleInstall exampleGateway (dynamoStore exampleDB keepAll) workingAdapters
        (startWorld noTables)
        (exampleInstall [("project", Value.str "myproj"), ("app", Value.str "app1"),
          ("cluster", Value.str "prod1"), ("phase", Value.str "pending")])).world.trace =
      [] := by
  constructor <;> rfl

/-! ## Terminal and unexpected phases -/

/-- C8. Terminal and unexpected phases, for any store and any collaborators.  For a
targeted install, `handleInstall` returns normally and leaves the world as it was (no
`Apply`, no `SendScript`, no other call) when the phase is `failed`, `running` or
`completed`; and when the phase is anything other than these three and `pending`, the
absent phase included, it panics with the world as it was. -/
theorem terminal_phases {σ : Type} (g : Gateway) (db : Store σ) (ad : Adapters)
    (w : World σ) (i : Resource) (proj app : String)
    (hproj : i.Spec.get "project" = Value.str proj) (happ : i.Spec.get "app" = Value.str app)
    (hcl : i.Spec.get "cluster" = Value.str g.clusterName)
    (htp : hasKey g.targetedProjects proj = true) (hta : hasKey g.targetedApps app = true) :
    ((i.Spec.get "phase" = Value.str "failed" ∨ i.Spec.get "phase" = Value.str "running" ∨
        i.Spec.get "phase" = Value.str "completed") →
      handleInstall g db ad w i = ⟨w, Status.returned⟩) ∧
    ((i.Spec.get "phase" ≠ Value.str "pending" ∧ i.Spec.get "phase" ≠ Value.str "failed" ∧
        i.Spec.get "phase" ≠ Value.str "running" ∧
        i.Spec.get "phase" ≠ Value.str "completed") →
      handleInstall g db ad w i =
        ⟨w, Status.panic ("unexpected phase for \"" ++ i.NameHashKey ++ "\": " ++
          fmtS (i.Spec.get "phase"))⟩) := by
  refine ⟨?_, ?_⟩
  · intro h
    unfold handleInstall
    rcases h with h | h | h <;>
      simp [hproj, happ, hcl, Value.asString, htp, hta, h]
  · rintro ⟨h1, h2, h3, h4⟩
    unfold handleInstall
    simp [hproj, happ, hcl, Value.asString, htp, hta, h1, h2, h3, h4]

theorem terminal_phases_witness :
    handleInstall exampleGateway (dynamoStore exampleDB keepAll) workingAdapters
        (startWorld noTables)
        (exampleInstall [("project", Value.str "myproj"), ("app", Value.str "app1"),
          ("sha1", Value.str "abc"), ("cluster", Value.str "prod1")]) =
      ⟨startWorld noTables, Status.panic ("unexpected phase for \"" ++
        (exampleInstall [("project", Value.str "myproj"), ("app", Value.str "app1"),
          ("sha1", Value.str "abc"), ("cluster", Value.str "prod1")]).NameHashKey ++ "\": " ++
        fmtS ((exampleInstall [("project", Value.str "myproj"), ("app", Value.str "app1"),
          ("sha1", Value.str "abc"), ("cluster", Value.str "prod1")]).Spec.get "phase"))⟩ :=
  (terminal_phases exampleGateway (dynamoStore exampleDB keepAll) workingAdapters
      (startWorld noTables)
      (exampleInstall [("project", Value.str "myproj"), ("app", Value.str "app1"),
        ("sha1", Value.str "abc"), ("cluster", Value.str "prod1")])
      "myproj" "app1" (by decide) (by decide) (by decide) (by decide) (by decide)).2
    ⟨by decide, by decide, by decide, by decide⟩

/-! ## `get` on zero rows -/

theorem msgItemNotFound_contains (p : DynamoResourceDB) (resource name : String) :
    name.data <:+: (msgItemNotFound p resource name).data := by
  unfold msgItemNotFound
  simp only [String.data_append, List.append_assoc]
  exact (List.infix_append' _ _ _).trans (List.suffix_append _ _).isInfix

/-- C9. Get of a missing name.  For every kind, every non-empty name and every selector
list for which `get` reaches the backend, when the key lookup it sends comes back with
zero rows and no error, `get` returns no resources and an `ErrResourceNotFound`, and so
does `GetSync`; the request is the lookup of the key `name`, and the message of the
error contains `name`. -/
theorem get_missing_name (p : DynamoResourceDB) (backend : Query → Response)
    (resource name : String) (selectors : List String) (q : Query)
    (hname : name ≠ "") (hq : getQuery p resource name selectors = some q)
    (hresp : backend q = { rows := [], err := none }) :
    (∃ filter, q = Query.get (p.tableNameForResourceNamed resource) HashKeyName name filter) ∧
    get p backend resource name selectors =
      some { resources := [],
             err := some (GoError.resourceNotFound (msgItemNotFound p resource name)) } ∧
    GetSync p backend resource name selectors =
      some { resources := [],
             err := some (GoError.resourceNotFound (msgItemNotFound p resource name)) } ∧
    name.data <:+: (GoError.resourceNotFound (msgItemNotFound p resource name)).Error.data := by
  have hget : get p backend resource name selectors =
      some { resources := [],
             err := some (GoError.resourceNotFound (msgItemNotFound p resource name)) } := by
    simp [get, hq, hresp, getReturn, hname]
  refine ⟨?_, hget, ?_, msgItemNotFound_contains p resource name⟩
  · unfold getQuery at hq
    simp only [hname, ne_eq, not_false_eq_true, if_true] at hq
    split at hq
    · split at hq
      · cases hq
      · cases hq
        exact ⟨_, rfl⟩
    · cases hq
      exact ⟨_, rfl⟩
  · simp [GetSync, hget]

theorem get_missing_name_witness :
    GetSync exampleDB emptyBackend "deployment" "nonexistent-name" [] =
      some { resources := [],
             err := some (GoError.resourceNotFound
               (msgItemNotFound exampleDB "deployment" "nonexistent-name")) } :=
  (get_missing_name exampleDB emptyBackend "deployment" "nonexistent-name" []
    (Query.get (exampleDB.tableNameForResourceNamed "deployment") HashKeyName
      "nonexistent-name" none)
    (by decide) rfl rfl).2.2.1

/-- C10, as amended. Get of an empty kind.  For every kind and every selector list for
which `get` reaches the backend, with the empty name, when the scan it sends comes back
with zero rows and no error, `get` returns the empty result with a nil error, and so
does `GetSync`: the message that nothing of the kind was found goes to standard error
only, and no `ErrResourceNotFound` is returned. -/
theorem get_empty_kind (p : DynamoResourceDB) (backend : Query → Response)
    (resource : String) (selectors : List String) (q : Query)
    (hq : getQuery p resource "" selectors = some q)
    (hresp : backend q = { rows := [], err := none }) :
    (∃ filter, q = Query.scan (p.tableNameForResourceNamed resource) filter) ∧
    get p backend resource "" selectors = some { resources := [], err := none } ∧
    GetSync p backend resource "" selectors = some { resources := [], err := none } := by
  have hget : get p backend resource "" selectors = some { resources := [], err := none } := by
    simp [get, hq, hresp, getReturn]
  refine ⟨?_, hget, ?_⟩
  · unfold getQuery at hq
    simp only [ne_eq, not_true_eq_false, if_false] at hq
    split at hq
    · split at hq
      · cases hq
      · cases hq
        exact ⟨_, rfl⟩
    · cases hq
      exact ⟨_, rfl⟩
  · simp [GetSync, hget]

theorem get_empty_kind_witness :
    get exampleDB emptyBackend "deployment" "" [] =
      some { resources := [], err := none } :=
  (get_empty_kind exampleDB emptyBackend "deployment" []
    (Query.scan (exampleDB.tableNameForResourceNamed "deployment") none) rfl rfl).2.1

/-- C10, counterexample. With the empty name, on a scan that comes back with zero rows
and no error, `get` returns a nil error, not an `ErrResourceNotFound`. -/
theorem get_empty_kind_returns_nil_error :
    (get exampleDB emptyBackend "deployment" "" []).map GetResult.err = some none := by
  rfl

/-! ## The feedback channel `newInstalls` -/

/-- C6, on the code. The release `app1-prod1` at `abc` creates the install
`app1-prod1-abc`; the loop then receives the copy pushed on `newInstalls`, and later the
change feed delivers the pending image of the same write on `installs`.  The job is
submitted twice and the phase `running` is written twice. -/
theorem echo_submits_twice :
    (eventLoop exampleGateway (dynamoStore exampleDB keepAll) workingAdapters
        (startWorld noTables)
        [Event.releases (exampleRelease "abc"), Event.newInstalls,
         Event.installs (some pendingImage)]).status = Status.returned ∧
    (submissions (eventLoop exampleGateway (dynamoStore exampleDB keepAll) workingAdapters
        (startWorld noTables)
        [Event.releases (exampleRelease "abc"), Event.newInstalls,
         Event.installs (some pendingImage)]).world.trace).length = 2 ∧
    (phaseWrites (eventLoop exampleGateway (dynamoStore exampleDB keepAll) workingAdapters
        (startWorld noTables)
        [Event.releases (exampleRelease "abc"), Event.newInstalls,
         Event.installs (some pendingImage)]).world.trace
      "app1-prod1-abc" "running").length = 2 ∧
    (phaseWrites (eventLoop exampleGateway (dynamoStore exampleDB keepAll) workingAdapters
        (startWorld noTables)
        [Event.releases (exampleRelease "abc")]).world.trace
      "app1-prod1-abc" "pending") = [pendingImage] := by
  refine ⟨?_, ?_, ?_, ?_⟩ <;> rfl

/-- C7, on the code. Two release events that each create a new install are received
one after the other, before the loop receives from `newInstalls`: the first send fills
the buffer of capacity 1, and the loop stays blocked in the second send, after the
second `Apply`, with the first install still in the buffer. -/
theorem second_push_blocks :
    (eventLoop exampleGateway (dynamoStore exampleDB keepAll) workingAdapters
        (startWorld noTables)
        [Event.releases (exampleRelease "abc"), Event.releases (exampleRelease "def")]).status =
      Status.blocked ∧
    (eventLoop exampleGateway (dynamoStore exampleDB keepAll) workingAdapters
        (startWorld noTables)
        [Event.releases (exampleRelease "abc"),
         Event.releases (exampleRelease "def")]).world.newInstalls = [pendingImage] ∧
    (eventLoop exampleGateway (dynamoStore exampleDB keepAll) workingAdapters
        (startWorld noTables)
        [Event.releases (exampleRelease "abc"),
         Event.releases (exampleRelease "def")]).world.trace.getLast? =
      some (Effect.push
        (newInstall "app1-prod1-def" "myproj" "app1" (Value.str "def") "prod1")) := by
  refine ⟨?_, ?_, ?_⟩ <;> rfl

/-! ## `get` against a missing table -/

/-- C11, as amended. Get against a missing table.  For every kind and every selector
list for which `get` reaches the backend, when the backend reports with the code
`ResourceNotFoundException` that the table does not exist, `get` returns, for a
non-empty name, no resources and an `ErrResourceNotFound` carrying the message of
line 96 (no table of that name exists, create it by `div apply`), and so does
`GetSync`; for the empty name it returns the decoded rows and a nil error.  A caller
that tolerates `ErrResourceNotFound` therefore sees a missing table as an absent
resource. -/
theorem get_missing_table (p : DynamoResourceDB) (backend : Query → Response)
    (resource name : String) (selectors : List String) (q : Query)
    (rows : List Resource) (message : String)
    (hq : getQuery p resource name selectors = some q)
    (hresp : backend q =
      { rows := rows,
        err := some (BackendError.awserr ErrCodeResourceNotFoundException message) }) :
    (name ≠ "" →
      get p backend resource name selectors =
        some { resources := [],
               err := some (GoError.resourceNotFound (msgTableNotFound p resource name)) } ∧
      GetSync p backend resource name selectors =
        some { resources := [],
               err := some (GoError.resourceNotFound (msgTableNotFound p resource name)) }) ∧
    (name = "" →
      get p backend resource name selectors = some { resources := rows, err := none } ∧
      GetSync p backend resource name selectors = some { resources := rows, err := none }) := by
  refine ⟨?_, ?_⟩
  · intro hname
    have hget : get p backend resource name selectors =
        some { resources := [],
               err := some (GoError.resourceNotFound (msgTableNotFound p resource name)) } := by
      simp [get, hq, hresp, getReturn, hname]
    exact ⟨hget, by simp [GetSync, hget]⟩
  · intro hname
    subst hname
    have hget : get p backend resource "" selectors =
        some { resources := rows, err := none } := by
      simp [get, hq, hresp, getReturn]
    exact ⟨hget, by simp [GetSync, hget]⟩

theorem get_missing_table_witness :
    GetSync exampleDB missingTableBackend "release" "app1-prod1" [] =
      some { resources := [],
             err := some (GoError.resourceNotFound
               (msgTableNotFound exampleDB "release" "app1-prod1")) } :=
  ((get_missing_table exampleDB missingTableBackend "release" "app1-prod1" []
    (Query.get (exampleDB.tableNameForResourceNamed "release") HashKeyName "app1-prod1" none)
    [] "Requested resource not found" rfl rfl).1 (by decide)).2

/-- C11, counterexample. Against a backend that reports the table of `release` as
missing, `get` of the release `app1-prod1` returns an `ErrResourceNotFound`, and `get`
of the whole kind returns a nil error. -/
theorem get_missing_table_is_not_found :
    (get exampleDB missingTableBackend "release" "app1-prod1" []).map GetResult.err =
      some (some (GoError.resourceNotFound
        ("release \"app1-prod1\" not found: no dynamodb table named " ++
          "\"div-mydb-production-release\" exists. create it by " ++
          "\"div apply -f your-new-release.release.yaml\""))) ∧
    (get exampleDB missingTableBackend "release" "" []).map GetResult.err = some none := by
  constructor <;> rfl

/-! ## Selectors -/

theorem splitEq_ne_nil (l : List Char) : splitEq l ≠ [] := by
  cases l with
  | nil => simp [splitEq]
  | cons c cs =>
    unfold splitEq
    split
    · simp
    · split <;> simp

theorem splitEq_cons_eq (cs : List Char) : splitEq ('=' :: cs) = [] :: splitEq cs := by
  simp [splitEq]

theorem splitEq_cons_ne (c : Char) (cs a : List Char) (t : List (List Char))
    (hc : c ≠ '=') (h : splitEq cs = a :: t) : splitEq (c :: cs) = (c :: a) :: t := by
  simp [splitEq, hc, h]

theorem splitEq_single_iff (l : List Char) : (∃ k, splitEq l = [k]) ↔ '=' ∉ l := by
  induction l with
  | nil => simp [splitEq]
  | cons c cs ih =>
    by_cases hc : c = '='
    · subst hc
      rw [splitEq_cons_eq]
      simp only [List.mem_cons, true_or, not_true_eq_false, iff_false]
      rintro ⟨k, hk⟩
      simp only [List.cons.injEq] at hk
      exact splitEq_ne_nil cs hk.2
    · have hne : ¬ '=' = c := fun h => hc h.symm
      simp only [List.mem_cons, hne, false_or]
      rw [← ih]
      cases h : splitEq cs with
      | nil => exact absurd h (splitEq_ne_nil cs)
      | cons a t =>
        rw [splitEq_cons_ne c cs a t hc h]
        simp

theorem selectorCond_none_iff (selector : String) :
    selectorCond selector = none ↔ '=' ∉ selector.data := by
  rw [← splitEq_single_iff]
  unfold selectorCond
  cases h : splitEq selector.data with
  | nil => exact absurd h (splitEq_ne_nil _)
  | cons k t =>
    cases t with
    | nil => simp
    | cons v t2 =>
      simp only [List.cons.injEq, reduceCtorEq, and_false, exists_false, iff_false]
      split <;> simp

theorem exprAndArgsLoop_none_iff (selectors : List String) :
    ∀ conds args : List String,
      exprAndArgsLoop selectors conds args = none ↔
        ∃ s ∈ selectors, selectorCond s = none := by
  induction selectors with
  | nil => intro conds args; simp [exprAndArgsLoop]
  | cons s rest ih =>
    intro conds args
    unfold exprAndArgsLoop
    cases h : selectorCond s with
    | none => simp [h]
    | some kvc =>
      obtain ⟨k, v, cond⟩ := kvc
      simp only [List.mem_cons, exists_eq_or_imp, h, reduceCtorEq, false_or]
      exact ih _ _

/-- C15. Malformed selectors are rejected.  For every selector list, `exprAndArgs` fails
(the index `kv[1]` is out of range and the call panics) if and only if some selector of
the list contains no `=`; so it yields no expression and no arguments for a list with
such a selector, and it yields both for a list whose selectors all contain `=`. -/
theorem exprAndArgs_fails_iff (selectors : List String) :
    (exprAndArgs selectors = none ↔ ∃ s ∈ selectors, '=' ∉ s.data) ∧
    ((∀ s ∈ selectors, '=' ∈ s.data) → ∃ expr args, exprAndArgs selectors = some (expr, args)) := by
  have hiff : exprAndArgs selectors = none ↔ ∃ s ∈ selectors, '=' ∉ s.data := by
    unfold exprAndArgs
    cases h : exprAndArgsLoop selectors [] [] with
    | none =>
      simp only [true_iff]
      obtain ⟨s, hs, hnone⟩ := (exprAndArgsLoop_none_iff selectors [] []).mp h
      exact ⟨s, hs, (selectorCond_none_iff s).mp hnone⟩
    | some ca =>
      simp only [reduceCtorEq, false_iff]
      rintro ⟨s, hs, hno⟩
      have hnone := (exprAndArgsLoop_none_iff selectors [] []).mpr
        ⟨s, hs, (selectorCond_none_iff s).mpr hno⟩
      rw [h] at hnone
      cases hnone
  refine ⟨hiff, ?_⟩
  intro hall
  cases h : exprAndArgs selectors with
  | none =>
    obtain ⟨s, hs, hno⟩ := hiff.mp h
    exact absurd (hall s hs) hno
  | some ea => exact ⟨ea.1, ea.2, rfl⟩

theorem exprAndArgs_fails_iff_witness :
    ∃ expr args, exprAndArgs ["env=prod", "tier!=web"] = some (expr, args) :=
  (exprAndArgs_fails_iff ["env=prod", "tier!=web"]).2 (by decide)

/-- C14, on the code. For the two well-formed selectors `env=prod` and `tier=web`,
`exprAndArgs` returns the arguments `env`, `prod`, `tier`, `web` and the two equality
conditions, but joined by the bare string `AND`: the first condition ends in `?` and is
directly followed by `AND` and the opening quote of the second, with no whitespace on
either side. -/
theorem two_selectors_joined_without_space :
    exprAndArgs ["env=prod", "tier=web"] =
      some ("\x27metadata\x27.\x27labels\x27.$ = ?AND\x27metadata\x27.\x27labels\x27.$ = ?",
        ["env", "prod", "tier", "web"]) := by
  rfl

/-- C16, on the code. The selector `env==prod` is split at both `=` signs into `env`,
the empty string and `prod`; the value taken is the empty string, so the arguments are
`env` and the empty string, not `env` and `prod` as for `env=prod`. -/
theorem double_equals_loses_value :
    exprAndArgs ["env==prod"] =
      some ("\x27metadata\x27.\x27labels\x27.$ = ?", ["env", ""]) ∧
    exprAndArgs ["env=prod"] =
      some ("\x27metadata\x27.\x27labels\x27.$ = ?", ["env", "prod"]) := by
  constructor <;> rfl

/-! ## Snapshot, then stream -/

theorem resourcesSent_append (a b : List Sent) :
    resourcesSent (a ++ b) = resourcesSent a ++ resourcesSent b := by
  simp [resourcesSent, List.filterMap_append]

theorem resourcesSent_map (rs : List Resource) :
    resourcesSent (rs.map Sent.resource) = rs := by
  induction rs with
  | nil => rfl
  | cons r rest ih =>
    simp only [resourcesSent, List.map_cons, List.filterMap_cons] at ih ⊢
    rw [ih]

theorem watchLoop_closed (received : List Received) :
    ∀ errOpen : Bool, resourcesSent (watchLoop false errOpen received) = [] := by
  induction received with
  | nil => intro errOpen; rfl
  | cons item rest ih =>
    intro errOpen
    unfold watchLoop
    cases errOpen with
    | false => simp [resourcesSent]
    | true =>
      cases item with
      | resource r => simpa using ih true
      | closed => simpa using ih true
      | error e =>
        simp only [Bool.false_eq_true, and_false, if_false, if_true]
        simpa [resourcesSent] using ih false
      | errClosed => simpa using ih false

theorem watchLoop_resources (received : List Received) :
    ∀ errOpen : Bool,
      resourcesSent (watchLoop true errOpen received) = feedResources received := by
  induction received with
  | nil => intro errOpen; rfl
  | cons item rest ih =>
    intro errOpen
    unfold watchLoop
    cases item with
    | resource r =>
      simp only [Bool.true_eq_false, false_and, if_false, if_true, feedResources]
      simpa [resourcesSent] using ih errOpen
    | closed =>
      simp only [Bool.true_eq_false, false_and, if_false, feedResources]
      exact watchLoop_closed rest errOpen
    | error e =>
      simp only [Bool.true_eq_false, false_and, if_false, feedResources]
      cases errOpen with
      | false => simpa using ih false
      | true => simpa [resourcesSent] using ih false
    | errClosed =>
      simp only [Bool.true_eq_false, false_and, if_false, feedResources]
      exact ih false

/-- C12. Snapshot, then stream.  For every kind, name and selector list and every
sequence of values that the watch loop receives: when `get` returns resources and a nil
error, `GetAsync` with `watch` set first sends exactly those resources, in the order of
`get` and each once, and only then what the loop forwards, so that the resource channel
carries the snapshot followed by the resources of the change feed in feed order;
without `watch` it sends the snapshot and nothing else; and when `get` returns an error,
that error is the only value sent. -/
theorem snapshot_then_stream (p : DynamoResourceDB) (backend : Query → Response)
    (resource name : String) (selectors : List String) (received : List Received) :
    (∀ rs : List Resource,
      get p backend resource name selectors = some { resources := rs, err := none } →
      (∃ forwarded : List Sent,
        GetAsync p backend resource name selectors true received =
          some (rs.map Sent.resource ++ forwarded) ∧
        resourcesSent forwarded = feedResources received ∧
        resourcesSent (rs.map Sent.resource ++ forwarded) = rs ++ feedResources received ∧
        (rs.map Sent.resource ++ forwarded).take rs.length = rs.map Sent.resource) ∧
      GetAsync p backend resource name selectors false received =
        some (rs.map Sent.resource)) ∧
    (∀ (rs : List Resource) (err : GoError) (watch : Bool),
      get p backend resource name selectors = some { resources := rs, err := some err } →
      GetAsync p backend resource name selectors watch received = some [Sent.error err]) := by
  refine ⟨?_, ?_⟩
  · intro rs hget
    refine ⟨⟨watchLoop true true received, ?_, watchLoop_resources received true, ?_, ?_⟩, ?_⟩
    · simp [GetAsync, hget]
    · rw [resourcesSent_append, resourcesSent_map, watchLoop_resources]
    · have hlen : rs.length = (rs.map Sent.resource).length := by simp
      rw [hlen, List.take_left]
    · simp [GetAsync, hget]
  · intro rs err watch hget
    simp [GetAsync, hget]

theorem snapshot_then_stream_witness :
    ∃ forwarded : List Sent,
      GetAsync exampleDB (tableResponse keepAll projectOnly) "project" "" [] true
          [Received.resource devDeployment] =
        some ([exampleProject].map Sent.resource ++ forwarded) ∧
      resourcesSent forwarded = feedResources [Received.resource devDeployment] ∧
      resourcesSent ([exampleProject].map Sent.resource ++ forwarded) =
        [exampleProject] ++ feedResources [Received.resource devDeployment] ∧
      ([exampleProject].map Sent.resource ++ forwarded).take [exampleProject].length =
        [exampleProject].map Sent.resource :=
  ((snapshot_then_stream exampleDB (tableResponse keepAll projectOnly) "project" "" []
    [Received.resource devDeployment]).1 [exampleProject] rfl).1

/-- C13, on the code. A watch of all deployments with the selector `env=prod`: the
change feed delivers a record of the deployment `app2`, whose only label is `env=dev`.
The worker of `streamedResources` sends it on, and `GetAsync` with `watch` set emits it,
although it does not satisfy the selector. -/
theorem watch_ignores_selectors :
    devDeployment.Metadata.Labels = [("env", "dev")] ∧
    streamedResources "deployment" "" ["env=prod"]
        [{ resource := devDeployment, unmarshalErr := none }] =
      [Sent.resource devDeployment] ∧
    GetAsync exampleDB emptyBackend "deployment" "" ["env=prod"] true
        ((streamedResources "deployment" "" ["env=prod"]
          [{ resource := devDeployment, unmarshalErr := none }]).map receive) =
      some [Sent.resource devDeployment] := by
  refine ⟨?_, ?_, ?_⟩ <;> rfl

/-! ## Startup -/

theorem GetSync_named_cases (p : DynamoResourceDB)
    (evalFilter : String → List String → Resource → Bool) (tables : Tables)
    (resource name : String) (hname : name ≠ "") :
    (rowsNamed tables (p.tableNameForResourceNamed resource) name = [] ∧
      ∃ msg, GetSync p (tableResponse evalFilter tables) resource name [] =
        some { resources := [], err := some (GoError.resourceNotFound msg) }) ∨
    (rowsNamed tables (p.tableNameForResourceNamed resource) name ≠ [] ∧
      GetSync p (tableResponse evalFilter tables) resource name [] =
        some { resources := rowsNamed tables (p.tableNameForResourceNamed resource) name,
               err := none }) := by
  have hq : getQuery p resource name [] =
      some (Query.get (p.tableNameForResourceNamed resource) HashKeyName name none) := by
    simp [getQuery, hname]
  cases htab : tables (p.tableNameForResourceNamed resource) with
  | none =>
    left
    refine ⟨by simp [rowsNamed, htab], msgTableNotFound p resource name, ?_⟩
    simp [GetSync, get, hq, tableResponse_get_none _ _ _ _ _ htab, getReturn, hname]
  | some t =>
    by_cases hrows : t.lookup name = []
    · left
      refine ⟨by simp [rowsNamed, htab, hrows], msgItemNotFound p resource name, ?_⟩
      simp [GetSync, get, hq, tableResponse_get_some _ _ _ _ _ t htab, getReturn, hname, hrows]
    · right
      refine ⟨by simp [rowsNamed, htab, hrows], ?_⟩
      simp [GetSync, get, hq, tableResponse_get_some _ _ _ _ _ t htab, getReturn,
        rowsNamed, htab, hrows]

theorem GetSync_absent (p : DynamoResourceDB)
    (evalFilter : String → List String → Resource → Bool) (tables : Tables)
    (resource name : String) (t : Table) (hname : name ≠ "")
    (htab : tables (p.tableNameForResourceNamed resource) = some t)
    (hrows : t.lookup name = []) :
    GetSync p (tableResponse evalFilter tables) resource name [] =
      some { resources := [],
             err := some (GoError.resourceNotFound (msgItemNotFound p resource name)) } := by
  have hq : getQuery p resource name [] =
      some (Query.get (p.tableNameForResourceNamed resource) HashKeyName name none) := by
    simp [getQuery, hname]
  simp [GetSync, get, hq, tableResponse_get_some _ _ _ _ _ t htab, getReturn, hname, hrows]

theorem GetSync_all (p : DynamoResourceDB)
    (evalFilter : String → List String → Resource → Bool) (tables : Tables)
    (resource : String) :
    GetSync p (tableResponse evalFilter tables) resource "" [] =
      some { resources :=
               match tables (p.tableNameForResourceNamed resource) with
               | some t => t.rows
               | none => [],
             err := none } := by
  have hq : getQuery p resource "" [] =
      some (Query.scan (p.tableNameForResourceNamed resource) none) := by
    simp [getQuery]
  cases htab : tables (p.tableNameForResourceNamed resource) with
  | none =>
    simp [GetSync, get, hq, tableResponse, htab, getReturn, ErrCodeResourceNotFoundException]
  | some t =>
    by_cases hrows : t.rows = []
    · simp [GetSync, get, hq, tableResponse, htab, getReturn, applyFilter, hrows]
    · simp [GetSync, get, hq, tableResponse, htab, getReturn, applyFilter, hrows]

theorem noProject_false_of_acc (name : String) (rows : List Resource) :
    noProject name rows false = false := by
  induction rows with
  | nil => rfl
  | cons r rest ih => simpa [noProject] using ih

theorem noProject_false_of_mem (name : String) (rows : List Resource) :
    ∀ acc : Bool, (∃ r ∈ rows, r.NameHashKey = name) → noProject name rows acc = false := by
  induction rows with
  | nil => intro acc h; simp at h
  | cons r rest ih =>
    intro acc h
    unfold noProject
    by_cases hr : r.NameHashKey = name
    · simp only [hr, ne_eq, not_true_eq_false, decide_False, Bool.and_false]
      exact noProject_false_of_acc name rest
    · obtain ⟨x, hx, hxn⟩ := h
      simp only [List.mem_cons] at hx
      rcases hx with hx | hx
      · exact absurd (hx ▸ hxn) hr
      · exact ih _ ⟨x, hx, hxn⟩

theorem rowsNamed_mem_key (tables : Tables) (table name : String) (r : Resource)
    (h : r ∈ rowsNamed tables table name) : r.NameHashKey = name := by
  unfold rowsNamed at h
  cases htab : tables table with
  | none => simp [htab] at h
  | some t =>
    simp only [htab, Table.lookup, List.mem_filter, decide_eq_true_eq] at h
    exact h.2

/-- C18, as amended. Startup with an unmatched project filter, over the lookups of
`dynamodb/get.go`.  For every non-empty project filter `X`, when the project table
exists and holds no project named `X`, startup fails before the event loop with the
`ErrResourceNotFound` that `GetSync` returned, whose message is that of line 87 of
`get.go` and contains `X`.  On this store the error `no project named "X" found` of
line 95 is never returned, whatever the tables hold. -/
theorem startup_unmatched_project (p : DynamoResourceDB)
    (evalFilter : String → List String → Resource → Bool)
    (applyImpl : Tables → Resource → Option GoError × Tables)
    (tables : Tables) (clusterName X appFilter env : String) (t : Table)
    (hX : X ≠ "") (htab : tables (p.tableNameForResourceNamed "project") = some t)
    (habs : t.lookup X = []) :
    startup (dynamoStoreWith p evalFilter applyImpl) tables clusterName X appFilter env =
      Startup.failed (GoError.resourceNotFound (msgItemNotFound p "project" X)) ∧
    X.data <:+: (msgItemNotFound p "project" X).data ∧
    (∀ (anyTables : Tables) (filter : String),
      startup (dynamoStoreWith p evalFilter applyImpl) anyTables clusterName filter appFilter
          env ≠
        Startup.failed (GoError.other ("no project named \"" ++ filter ++ "\" found"))) := by
  refine ⟨?_, msgItemNotFound_contains p "project" X, ?_⟩
  · have hG : (dynamoStoreWith p evalFilter applyImpl).GetSync tables "project" X [] = _ :=
      GetSync_absent p evalFilter tables "project" X t hX htab habs
    unfold startup
    rw [hG]
  · intro anyTables filter
    unfold startup
    by_cases hf : filter = ""
    · subst hf
      have hG : (dynamoStoreWith p evalFilter applyImpl).GetSync anyTables "project" "" [] = _ :=
        GetSync_all p evalFilter anyTables "project"
      rw [hG]
      simp only [ne_eq, not_true_eq_false, false_and, if_false]
      have hA : (dynamoStoreWith p evalFilter applyImpl).GetSync anyTables "application" "" []
          = _ := GetSync_all p evalFilter anyTables "application"
      rw [hA]
      simp only
      split <;> simp
    · rcases GetSync_named_cases p evalFilter anyTables "project" filter hf with
        ⟨-, m, hG⟩ | ⟨hrows, hG⟩
      · have hG2 : (dynamoStoreWith p evalFilter applyImpl).GetSync anyTables "project"
            filter [] = _ := hG
        rw [hG2]
        simp
      · have hG2 : (dynamoStoreWith p evalFilter applyImpl).GetSync anyTables "project"
            filter [] = _ := hG
        rw [hG2]
        have hno : noProject filter
            (rowsNamed anyTables (p.tableNameForResourceNamed "project") filter) true =
              false := by
          apply noProject_false_of_mem
          cases hl : rowsNamed anyTables (p.tableNameForResourceNamed "project") filter with
          | nil => exact absurd hl hrows
          | cons r rest =>
            refine ⟨r, by simp, ?_⟩
            exact rowsNamed_mem_key anyTables _ filter r (by rw [hl]; simp)
        simp only [hno, Bool.false_eq_true, and_false, if_false]
        have hA : (dynamoStoreWith p evalFilter applyImpl).GetSync anyTables "application" "" []
            = _ := GetSync_all p evalFilter anyTables "application"
        rw [hA]
        simp only
        split <;> simp

theorem startup_unmatched_project_witness :
    startup (dynamoStoreWith exampleDB keepAll (Apply exampleDB)) projectOnly "prod1" "nope"
        "" "production" =
      Startup.failed (GoError.resourceNotFound (msgItemNotFound exampleDB "project" "nope")) :=
  (startup_unmatched_project exampleDB keepAll (Apply exampleDB) projectOnly "prod1" "nope"
    "" "production" { rows := [exampleProject], nodup := by simp }
    (by decide) rfl rfl).1

/-- C18, counterexample. The project table holds `myproj` only and the filter is
`nope`: startup fails with the error of `GetSync`, whose text is not
`no project named "nope" found`. -/
theorem startup_fails_with_not_found :
    startup (dynamoStore exampleDB keepAll) projectOnly "prod1" "nope" "" "production" =
      Startup.failed (GoError.resourceNotFound
        ("project \"nope\" not found: dynamodb table named " ++
          "\"div-mydb-production-project\" exists, but no item named \"nope\" found")) := by
  rfl

theorem lookup_mapInsert_self (m : List (String × Resource)) (k : String) (v : Resource) :
    (mapInsert m k v).lookup k = some v := by
  induction m with
  | nil => simp [mapInsert, List.lookup]
  | cons kv rest ih =>
    obtain ⟨k0, v0⟩ := kv
    by_cases h : k0 = k
    · simp [mapInsert, h, List.lookup]
    · have hb : (k == k0) = false := by
        simp only [beq_eq_false_iff_ne, ne_eq]
        exact fun hc => h hc.symm
      simp only [mapInsert, h, if_false, List.lookup, hb]
      exact ih

theorem lookup_mapInsert_other (m : List (String × Resource)) (k k1 : String) (v : Resource)
    (hne : k1 ≠ k) : (mapInsert m k v).lookup k1 = m.lookup k1 := by
  induction m with
  | nil =>
    have hb : (k1 == k) = false := by simpa using hne
    simp [mapInsert, List.lookup, hb]
  | cons kv rest ih =>
    obtain ⟨k0, v0⟩ := kv
    by_cases h : k0 = k
    · subst h
      have hb : (k1 == k0) = false := by simpa using hne
      simp [mapInsert, List.lookup, hb]
    · simp only [mapInsert, h, if_false]
      by_cases h1 : k1 = k0
      · subst h1
        simp [List.lookup]
      · have hb : (k1 == k0) = false := by simpa using h1
        simp only [List.lookup, hb]
        exact ih

theorem targetApps_step (tp : List (String × Resource)) (appFilter : String)
    (app : Resource) (rest : List Resource) (m : List (String × Resource)) (proj : String)
    (hproj : app.Spec.get "project" = Value.str proj) :
    targetApps tp appFilter (app :: rest) m =
      targetApps tp appFilter rest
        (if appTargeted tp appFilter app = true then mapInsert m app.NameHashKey app else m) := by
  simp only [targetApps, appTargeted, hproj, Value.asString, reduceCtorEq, if_false]
  by_cases hf : appFilter = ""
  · subst hf
    by_cases hk : hasKey tp proj = true
    · simp [hk]
    · simp [hk]
  · by_cases hn : app.NameHashKey = appFilter
    · by_cases hk : hasKey tp proj = true
      · simp [hf, hn, hk]
      · simp [hf, hn, hk]
    · simp [hf, hn]

theorem targetApps_spec (tp : List (String × Resource)) (appFilter : String)
    (apps : List Resource) :
    ∀ m : List (String × Resource),
      (∀ a ∈ apps, ∃ proj, a.Spec.get "project" = Value.str proj) →
      ∃ out, targetApps tp appFilter apps m = Except.ok out ∧
        (∀ k v, out.lookup k = some v →
          m.lookup k = some v ∨
            (v ∈ apps ∧ v.NameHashKey = k ∧ appTargeted tp appFilter v = true)) ∧
        (∀ k, (m.lookup k).isSome = true → (out.lookup k).isSome = true) ∧
        (∀ a ∈ apps, appTargeted tp appFilter a = true →
          (out.lookup a.NameHashKey).isSome = true) ∧
        (∀ k, (∀ a ∈ apps, a.NameHashKey ≠ k) → out.lookup k = m.lookup k) ∧
        ((apps.map Resource.NameHashKey).Nodup →
          ∀ a ∈ apps, appTargeted tp appFilter a = true →
            out.lookup a.NameHashKey = some a) := by
  induction apps with
  | nil =>
    intro m _
    exact ⟨m, rfl, fun k v h => Or.inl h, fun k h => h, fun a ha => by simp at ha,
      fun k _ => rfl, fun _ a ha => by simp at ha⟩
  | cons a rest ih =>
    intro m hall
    obtain ⟨proj, hproj⟩ := hall a (by simp)
    have hrest : ∀ b ∈ rest, ∃ proj, b.Spec.get "project" = Value.str proj :=
      fun b hb => hall b (by simp [hb])
    obtain ⟨out, hout, f1, f2, f3, f4, f5⟩ :=
      ih (if appTargeted tp appFilter a = true then mapInsert m a.NameHashKey a else m) hrest
    refine ⟨out, by rw [targetApps_step tp appFilter a rest m proj hproj]; exact hout,
      ?_, ?_, ?_, ?_, ?_⟩
    · intro k v hk
      rcases f1 k v hk with h | ⟨hv, hkey, ht⟩
      · by_cases ht : appTargeted tp appFilter a = true
        · simp only [ht, if_true] at h
          by_cases hka : k = a.NameHashKey
          · subst hka
            rw [lookup_mapInsert_self] at h
            cases h
            exact Or.inr ⟨by simp, rfl, ht⟩
          · rw [lookup_mapInsert_other _ _ _ _ hka] at h
            exact Or.inl h
        · simp only [ht] at h
          exact Or.inl h
      · exact Or.inr ⟨by simp [hv], hkey, ht⟩
    · intro k hk
      apply f2
      by_cases ht : appTargeted tp appFilter a = true
      · simp only [ht, if_true]
        by_cases hka : k = a.NameHashKey
        · subst hka
          rw [lookup_mapInsert_self]
          rfl
        · rw [lookup_mapInsert_other _ _ _ _ hka]
          exact hk
      · simp only [ht]
        exact hk
    · intro b hb hbt
      simp only [List.mem_cons] at hb
      rcases hb with hb | hb
      · subst hb
        apply f2
        simp only [hbt, if_true]
        rw [lookup_mapInsert_self]
        rfl
      · exact f3 b hb hbt
    · intro k hk
      rw [f4 k (fun b hb => hk b (by simp [hb]))]
      by_cases ht : appTargeted tp appFilter a = true
      · simp only [ht, if_true]
        exact lookup_mapInsert_other _ _ _ _ (fun h => hk a (by simp) h.symm)
      · simp only [ht]
        rfl
    · intro hnd b hb hbt
      simp only [List.map_cons, List.nodup_cons, List.mem_map, not_exists, not_and] at hnd
      simp only [List.mem_cons] at hb
      rcases hb with hb | hb
      · subst hb
        rw [f4 b.NameHashKey (fun x hx => hnd.1 x hx)]
        simp only [hbt, if_true]
        exact lookup_mapInsert_self _ _ _
      · exact f5 hnd.2 b hb hbt

/-- C19. Targeted applications.  For every list of applications that all carry a string
`project`, every map of targeted projects and every app-name filter, the loop of lines
103 to 117 ends without a panic, and the keys of the map it builds are exactly the
`NameHashKey`s of the applications whose `Spec.project` is a key of the targeted
projects and, when the filter is not empty, whose `NameHashKey` is the filter; every
value of the map is such an application stored under its own `NameHashKey`, and when
no two applications share a `NameHashKey` each such application is the value at its
key.  Over the lookups of `dynamodb/get.go`, when the application table exists and is
empty and the project lookup finds something (or no project filter is given), startup
reaches the event loop with an empty map of targeted applications. -/
theorem targeted_apps (targetedProjects : List (String × Resource)) (appFilter : String)
    (knownApps : List Resource)
    (hall : ∀ a ∈ knownApps, ∃ proj, a.Spec.get "project" = Value.str proj) :
    (∃ m, targetApps targetedProjects appFilter knownApps [] = Except.ok m ∧
      (∀ k, hasKey m k = true ↔
        ∃ a ∈ knownApps, a.NameHashKey = k ∧ appTargeted targetedProjects appFilter a = true) ∧
      (∀ k a, m.lookup k = some a →
        a ∈ knownApps ∧ a.NameHashKey = k ∧ appTargeted targetedProjects appFilter a = true) ∧
      ((knownApps.map Resource.NameHashKey).Nodup →
        ∀ a ∈ knownApps, appTargeted targetedProjects appFilter a = true →
          m.lookup a.NameHashKey = some a)) ∧
    (∀ (p : DynamoResourceDB) (evalFilter : String → List String → Resource → Bool)
        (applyImpl : Tables → Resource → Option GoError × Tables) (tables : Tables)
        (clusterName filter env : String) (apps : Table),
      tables (p.tableNameForResourceNamed "application") = some apps → apps.rows = [] →
      (filter = "" ∨
        rowsNamed tables (p.tableNameForResourceNamed "project") filter ≠ []) →
      ∃ projects,
        startup (dynamoStoreWith p evalFilter applyImpl) tables clusterName filter appFilter
            env =
          Startup.started
            { targetedProjects := projects, targetedApps := [],
              clusterName := clusterName, env := env }) := by
  refine ⟨?_, ?_⟩
  · obtain ⟨m, hm, f1, -, f3, -, f5⟩ :=
      targetApps_spec targetedProjects appFilter knownApps [] hall
    refine ⟨m, hm, ?_, ?_, f5⟩
    · intro k
      constructor
      · intro hk
        unfold hasKey at hk
        cases hl : m.lookup k with
        | none => simp [hl] at hk
        | some v =>
          rcases f1 k v hl with h | ⟨hv, hkey, ht⟩
          · simp [List.lookup] at h
          · exact ⟨v, hv, hkey, ht⟩
      · rintro ⟨a, ha, hkey, ht⟩
        unfold hasKey
        rw [← hkey]
        exact f3 a ha ht
    · intro k a hl
      rcases f1 k a hl with h | h
      · simp [List.lookup] at h
      · exact h
  · intro p evalFilter applyImpl tables clusterName filter env apps htab hrows hproj
    have hA : (dynamoStoreWith p evalFilter applyImpl).GetSync tables "application" "" [] =
        some { resources := [], err := none } := by
      have h := GetSync_all p evalFilter tables "application"
      rw [htab] at h
      simp only [hrows] at h
      exact h
    unfold startup
    by_cases hf : filter = ""
    · subst hf
      have hG : (dynamoStoreWith p evalFilter applyImpl).GetSync tables "project" "" [] = _ :=
        GetSync_all p evalFilter tables "project"
      rw [hG, hA]
      simp only [ne_eq, not_true_eq_false, false_and, if_false, targetApps]
      exact ⟨_, rfl⟩
    · have hrows2 : rowsNamed tables (p.tableNameForResourceNamed "project") filter ≠ [] := by
        rcases hproj with h | h
        · exact absurd h hf
        · exact h
      rcases GetSync_named_cases p evalFilter tables "project" filter hf with
        ⟨hnil, -⟩ | ⟨-, hG⟩
      · exact absurd hnil hrows2
      · have hG2 : (dynamoStoreWith p evalFilter applyImpl).GetSync tables "project"
            filter [] = _ := hG
        have hno : noProject filter
            (rowsNamed tables (p.tableNameForResourceNamed "project") filter) true = false := by
          apply noProject_false_of_mem
          cases hl : rowsNamed tables (p.tableNameForResourceNamed "project") filter with
          | nil => exact absurd hl hrows2
          | cons r rest =>
            refine ⟨r, by simp, ?_⟩
            exact rowsNamed_mem_key tables _ filter r (by rw [hl]; simp)
        rw [hG2, hA]
        simp only [hno, Bool.false_eq_true, and_false, if_false, targetApps]
        exact ⟨_, rfl⟩

theorem targeted_apps_witness :
    ∃ projects,
      startup (dynamoStoreWith exampleDB keepAll (Apply exampleDB)) noApplications "prod1" ""
          "" "production" =
        Startup.started
          { targetedProjects := projects, targetedApps := [],
            clusterName := "prod1", env := "production" } :=
  (targeted_apps exampleGateway.targetedProjects "" [exampleApp]
    (by intro a ha; simp only [List.mem_singleton] at ha; subst ha; exact ⟨"myproj", rfl⟩)).2
    exampleDB keepAll (Apply exampleDB) noApplications "prod1" "" "production"
    { rows := [], nodup := List.nodup_nil } rfl rfl (Or.inl rfl)

/-! ## `getCRDs` under throttling -/

theorem getCRDsLoop_retries
    (scanAll : String → Nat → List CustomResourceDefinition →
      List CustomResourceDefinition × Option BackendError)
    (table : String) (L : List CustomResourceDefinition) (k : Nat) :
    ∀ (n fuel : Nat) (steps : List CRDStep), k < fuel →
      (∀ i, n ≤ i → i < n + k →
        isThrottle (scanAll table i (crdsBefore scanAll table i)).2 = true) →
      scanAll table (n + k) (crdsBefore scanAll table (n + k)) = (L, none) →
      getCRDsLoop scanAll table fuel n (crdsBefore scanAll table n) steps =
        some { crds := L, err := none,
               steps := steps ++ retrySteps table k ++ [CRDStep.scan table] } := by
  induction k with
  | zero =>
    intro n fuel steps hfuel _ hok
    obtain ⟨f, rfl⟩ : ∃ f, fuel = f + 1 := ⟨fuel - 1, by omega⟩
    simp only [Nat.add_zero] at hok
    simp [getCRDsLoop, hok, retrySteps]
  | succ k ih =>
    intro n fuel steps hfuel hfail hok
    obtain ⟨f, rfl⟩ : ∃ f, fuel = f + 1 := ⟨fuel - 1, by omega⟩
    have hthr := hfail n (Nat.le_refl n) (by omega)
    have hnext := ih (n + 1) f (steps ++ [CRDStep.scan table] ++ [CRDStep.sleep 3]) (by omega)
      (fun i h1 h2 => hfail i (by omega) (by omega))
      (by rw [show n + 1 + k = n + (k + 1) by omega]; exact hok)
    unfold getCRDsLoop
    cases herr : (scanAll table n (crdsBefore scanAll table n)).2 with
    | none => simp [herr, isThrottle] at hthr
    | some e =>
      cases e with
      | plain message => simp [herr, isThrottle] at hthr
      | awserr code message =>
        simp only [herr, isThrottle, decide_eq_true_eq] at hthr
        have hrnf : code ≠ ErrCodeResourceNotFoundException := by
          rcases hthr with h | h <;> rw [h] <;> decide
        simp only [hrnf, if_false, hthr, if_true]
        have hstate : (scanAll table n (crdsBefore scanAll table n)).1 =
            crdsBefore scanAll table (n + 1) := rfl
        rw [hstate, hnext]
        simp [retrySteps]

theorem getCRDsLoop_error
    (scanAll : String → Nat → List CustomResourceDefinition →
      List CustomResourceDefinition × Option BackendError)
    (table : String) (fuel : Nat) :
    ∀ (n : Nat) (crds : List CustomResourceDefinition) (steps : List CRDStep)
      (res : CRDsResult) (e : GoError),
      getCRDsLoop scanAll table fuel n crds steps = some res → res.err = some e →
      ∃ i c message, (scanAll table i c).2 = some (BackendError.plain message) ∧
        e = GoError.other ("unexpected error: " ++ message) := by
  induction fuel with
  | zero => intro n crds steps res e h; simp [getCRDsLoop] at h
  | succ f ih =>
    intro n crds steps res e h he
    unfold getCRDsLoop at h
    cases herr : (scanAll table n crds).2 with
    | none =>
      simp only [herr, Option.some.injEq] at h
      rw [← h] at he
      cases he
    | some be =>
      cases be with
      | plain message =>
        simp only [herr, Option.some.injEq] at h
        rw [← h] at he
        simp only [Option.some.injEq] at he
        exact ⟨n, crds, message, herr, he.symm⟩
      | awserr code message =>
        simp only [herr] at h
        split at h
        · simp only [Option.some.injEq] at h
          rw [← h] at he
          cases he
        · split at h
          · exact ih _ _ _ res e h he
          · simp only [Option.some.injEq] at h
            rw [← h] at he
            cases he

theorem retrySteps_count (table : String) (k : Nat) :
    (retrySteps table k).count (CRDStep.sleep 3) = k ∧
    (retrySteps table k).count (CRDStep.scan table) = k := by
  induction k with
  | zero => simp [retrySteps]
  | succ k ih =>
    simp only [retrySteps, List.count_cons, ih.1, ih.2]
    simp

/-- C20. ListKinds retries on throttling.  For every `k`, if the first `k` scans of the
global table of definitions each fail with the code of a provisioned-throughput or
limit excess, and scan number `k + 1` returns no error and leaves the list `L` in the
slice, then, given room for `k + 1` scans, `getCRDs` returns `L` and a nil error after
`k + 1` scans and `k` waits of 3 seconds, each wait right after a failed scan.  And
whenever `getCRDs` returns an error, it is the `unexpected error` made from an error of
the backend that is not an AWS error, never one made from a throughput-limit
failure. -/
theorem getCRDs_retries (p : DynamoResourceDB)
    (scanAll : String → Nat → List CustomResourceDefinition →
      List CustomResourceDefinition × Option BackendError)
    (L : List CustomResourceDefinition) (k fuel : Nat)
    (hfail : ∀ i, i < k →
      isThrottle (scanAll (globalTableName p.databasePrefix p.databaseName p.crdName) i
        (crdsBefore scanAll (globalTableName p.databasePrefix p.databaseName p.crdName) i)).2 =
          true)
    (hok : scanAll (globalTableName p.databasePrefix p.databaseName p.crdName) k
        (crdsBefore scanAll (globalTableName p.databasePrefix p.databaseName p.crdName) k) =
      (L, none))
    (hfuel : k < fuel) :
    getCRDs p scanAll fuel =
      some { crds := L, err := none,
             steps := retrySteps (globalTableName p.databasePrefix p.databaseName p.crdName) k ++
               [CRDStep.scan (globalTableName p.databasePrefix p.databaseName p.crdName)] } ∧
    (retrySteps (globalTableName p.databasePrefix p.databaseName p.crdName) k ++
        [CRDStep.scan (globalTableName p.databasePrefix p.databaseName p.crdName)]).count
      (CRDStep.sleep 3) = k ∧
    (retrySteps (globalTableName p.databasePrefix p.databaseName p.crdName) k ++
        [CRDStep.scan (globalTableName p.databasePrefix p.databaseName p.crdName)]).count
      (CRDStep.scan (globalTableName p.databasePrefix p.databaseName p.crdName)) = k + 1 ∧
    (∀ (anyFuel : Nat) (res : CRDsResult) (e : GoError),
      getCRDs p scanAll anyFuel = some res → res.err = some e →
      ∃ i c message,
        (scanAll (globalTableName p.databasePrefix p.databaseName p.crdName) i c).2 =
          some (BackendError.plain message) ∧
        e = GoError.other ("unexpected error: " ++ message)) := by
  refine ⟨?_, ?_, ?_, ?_⟩
  · have h := getCRDsLoop_retries scanAll
      (globalTableName p.databasePrefix p.databaseName p.crdName) L k 0 fuel [] hfuel
      (fun i _ h2 => hfail i (by omega)) (by rw [Nat.zero_add]; exact hok)
    simpa [getCRDs, crdsBefore] using h
  · rw [List.count_append, (retrySteps_count _ k).1]
    simp
  · rw [List.count_append, (retrySteps_count _ k).2]
    simp
  · intro anyFuel res e h he
    exact getCRDsLoop_error scanAll _ anyFuel 0 [] [] res e h he

theorem getCRDs_retries_witness :
    getCRDs exampleDB throttledTwice 5 =
      some { crds := [{ Metadata := { Name := "deployment" } }], err := none,
             steps :=
               retrySteps (globalTableName exampleDB.databasePrefix exampleDB.databaseName
                 exampleDB.crdName) 2 ++
               [CRDStep.scan (globalTableName exampleDB.databasePrefix exampleDB.databaseName
                 exampleDB.crdName)] } :=
  (getCRDs_retries exampleDB throttledTwice [{ Metadata := { Name := "deployment" } }] 2 5
    (by
      intro i hi
      have hcases : i = 0 ∨ i = 1 := by omega
      rcases hcases with h | h <;> subst h <;> rfl)
    rfl (by decide)).1

/-! ## Required fields -/

theorem targetApps_panics (tp : List (String × Resource)) (appFilter : String)
    (apps : List Resource) :
    ∀ m : List (String × Resource),
      (∃ a ∈ apps, (appFilter = "" ∨ a.NameHashKey = appFilter) ∧
        (a.Spec.get "project").asString = none) →
      ∃ msg, targetApps tp appFilter apps m = Except.error msg := by
  induction apps with
  | nil => intro m h; simp at h
  | cons a rest ih =>
    intro m h
    obtain ⟨b, hb, hfilter, hnone⟩ := h
    simp only [targetApps]
    by_cases hskip : appFilter ≠ "" ∧ a.NameHashKey ≠ appFilter
    · rw [if_pos hskip]
      simp only [List.mem_cons] at hb
      rcases hb with hb | hb
      · subst hb
        rcases hfilter with hf | hf
        · exact absurd hf hskip.1
        · exact absurd hf hskip.2
      · exact ih m ⟨b, hb, hfilter, hnone⟩
    · rw [if_neg hskip]
      cases hp : a.Spec.get "project" with
      | null => exact ⟨_, if_pos rfl⟩
      | bool v => simp [Value.asString]
      | str proj =>
        simp only [reduceCtorEq, if_false, Value.asString]
        simp only [List.mem_cons] at hb
        rcases hb with hb | hb
        · subst hb
          simp [hp, Value.asString] at hnone
        · split
          · exact ih _ ⟨b, hb, hfilter, hnone⟩
          · exact ih _ ⟨b, hb, hfilter, hnone⟩

/-- C17, as amended. Required fields that are fatal, for any store and any
collaborators.  Handling a deployment whose `project` or `app` is missing (or not a
string), a release or an install whose `project`, `app` or `cluster` is missing, a
targeted install whose `phase` is missing, or a targeted pending install whose `sha1`
is missing, ends in a panic with the world as it was: no lookup, no `Apply`, no send.
Resolving the applications panics when an application that passes the app-name filter
has no `project`, and startup then panics.  An install that is not targeted is left
alone whatever its `phase` and `sha1`, and an application that the app-name filter
excludes is passed over without a look at its `project`. -/
theorem required_fields {σ : Type} (g : Gateway) (db : Store σ) (ad : Adapters)
    (w : World σ) (x : Resource) :
    (((x.Spec.get "project").asString = none ∨ (x.Spec.get "app").asString = none) →
      (deployCase g db w x).world = w ∧ ∃ msg, (deployCase g db w x).status = Status.panic msg) ∧
    (((x.Spec.get "project").asString = none ∨ (x.Spec.get "app").asString = none ∨
        (x.Spec.get "cluster").asString = none) →
      ((releaseCase g db w x).world = w ∧
        ∃ msg, (releaseCase g db w x).status = Status.panic msg) ∧
      ((handleInstall g db ad w x).world = w ∧
        ∃ msg, (handleInstall g db ad w x).status = Status.panic msg)) ∧
    (∀ proj app : String,
      x.Spec.get "project" = Value.str proj → x.Spec.get "app" = Value.str app →
      x.Spec.get "cluster" = Value.str g.clusterName →
      hasKey g.targetedProjects proj = true → hasKey g.targetedApps app = true →
      (x.Spec.get "phase" = Value.null →
        (handleInstall g db ad w x).world = w ∧
        ∃ msg, (handleInstall g db ad w x).status = Status.panic msg) ∧
      (x.Spec.get "phase" = Value.str "pending" → (x.Spec.get "sha1").asString = none →
        (handleInstall g db ad w x).world = w ∧
        ∃ msg, (handleInstall g db ad w x).status = Status.panic msg)) ∧
    (∀ proj app cluster : String,
      x.Spec.get "project" = Value.str proj → x.Spec.get "app" = Value.str app →
      x.Spec.get "cluster" = Value.str cluster →
      (hasKey g.targetedProjects proj && hasKey g.targetedApps app
        && decide (cluster = g.clusterName)) = false →
      handleInstall g db ad w x = ⟨w, Status.returned⟩) ∧
    (∀ (tp : List (String × Resource)) (appFilter : String) (apps : List Resource)
        (m : List (String × Resource)),
      ((appFilter = "" ∨ x.NameHashKey = appFilter) → (x.Spec.get "project").asString = none →
        x ∈ apps →
        (∃ msg, targetApps tp appFilter apps m = Except.error msg) ∧
        ∀ (s : σ) (clusterName filter env : String) (projects : List Resource),
          db.GetSync s "project" filter [] = some { resources := projects, err := none } →
          (filter = "" ∨ noProject filter projects true = false) →
          db.GetSync s "application" "" [] = some { resources := apps, err := none } →
          ∃ msg, startup db s clusterName filter appFilter env = Startup.panicked msg) ∧
      ((appFilter ≠ "" ∧ x.NameHashKey ≠ appFilter) →
        targetApps tp appFilter (x :: apps) m = targetApps tp appFilter apps m)) := by
  refine ⟨?_, ?_, ?_, ?_, ?_⟩
  · intro h
    unfold deployCase
    cases hp : x.Spec.get "project" <;> cases ha : x.Spec.get "app" <;>
      simp [hp, ha, Value.asString] at h ⊢
  · intro h
    refine ⟨?_, ?_⟩
    · unfold releaseCase
      cases hp : x.Spec.get "project" <;> cases ha : x.Spec.get "app" <;>
        cases hc : x.Spec.get "cluster" <;>
        simp [hp, ha, hc, Value.asString] at h ⊢
    · unfold handleInstall
      cases hp : x.Spec.get "project" <;> cases ha : x.Spec.get "app" <;>
        cases hc : x.Spec.get "cluster" <;>
        simp [hp, ha, hc, Value.asString] at h ⊢
  · intro proj app hproj happ hcl htp hta
    refine ⟨?_, ?_⟩
    · intro hphase
      unfold handleInstall
      simp [hproj, happ, hcl, Value.asString, htp, hta, hphase]
    · intro hphase hsha
      rw [handleInstall_pending g db ad w x proj app hproj happ hcl htp hta hphase]
      simp [handlePending, hsha]
  · intro proj app cluster hproj happ hcl hnot
    unfold handleInstall
    simp only [hproj, happ, hcl, Value.asString, hnot]
    simp
  · intro tp appFilter apps m
    refine ⟨?_, ?_⟩
    · intro hfilter hnone hmem
      refine ⟨targetApps_panics tp appFilter apps m ⟨x, hmem, hfilter, hnone⟩, ?_⟩
      intro s clusterName filter env projects hP hno hA
      obtain ⟨msg, hmsg⟩ := targetApps_panics (targetProjects filter projects []) appFilter
        apps [] ⟨x, hmem, hfilter, hnone⟩
      refine ⟨msg, ?_⟩
      unfold startup
      rw [hP]
      have hcond : ¬ (filter ≠ "" ∧ noProject filter projects true = true) := by
        rintro ⟨h1, h2⟩
        rcases hno with h | h
        · exact h1 h
        · rw [h] at h2
          cases h2
      simp only [hcond, if_false, hA, hmsg]
    · intro hskip
      simp only [targetApps]
      rw [if_pos hskip]

theorem required_fields_witness :
    (handleInstall exampleGateway (dynamoStore exampleDB keepAll) workingAdapters
        (startWorld noTables) appWithoutProject).world = startWorld noTables ∧
    ∃ msg, (handleInstall exampleGateway (dynamoStore exampleDB keepAll) workingAdapters
        (startWorld noTables) appWithoutProject).status = Status.panic msg :=
  ((required_fields exampleGateway (dynamoStore exampleDB keepAll) workingAdapters
    (startWorld noTables) appWithoutProject).2.1 (Or.inl rfl)).2

/-- C17, counterexample. Four resources that lack a key the claim requires and are not
fatal.  An install of another cluster with no `phase` and no `sha1`: `handleInstall`
returns normally.  The application `app2` with no `project`, under the app-name filter
`app1`: it is passed over and the loop ends normally.  A targeted deployment with no
`sha1`: the release `app1-prod1` is applied with a nil `sha1`.  A targeted release with
no `sha1`: an install named after the formatted nil is applied and sent on. -/
theorem missing_fields_not_fatal :
    foreignInstall.Spec.get "phase" = Value.null ∧
    (handleInstall exampleGateway (dynamoStore exampleDB keepAll) workingAdapters
        (startWorld noTables) foreignInstall).status = Status.returned ∧
    appWithoutProject.Spec.get "project" = Value.null ∧
    targetApps exampleGateway.targetedProjects "app1" [appWithoutProject, exampleApp] [] =
      Except.ok [("app1", exampleApp)] ∧
    deploymentWithoutSha1.Spec.get "sha1" = Value.null ∧
    (deployCase exampleGateway (dynamoStore exampleDB keepAll) (startWorld noTables)
        deploymentWithoutSha1).status = Status.returned ∧
    (deployCase exampleGateway (dynamoStore exampleDB keepAll) (startWorld noTables)
        deploymentWithoutSha1).world.trace =
      [Effect.getSync "release" "app1-prod1" [],
       Effect.apply (newRelease "app1-prod1" "myproj" "app1" Value.null "prod1")] ∧
    releaseWithoutSha1.Spec.get "sha1" = Value.null ∧
    (releaseCase exampleGateway (dynamoStore exampleDB keepAll) (startWorld noTables)
        releaseWithoutSha1).status = Status.returned ∧
    (releaseCase exampleGateway (dynamoStore exampleDB keepAll) (startWorld noTables)
        releaseWithoutSha1).world.trace =
      [Effect.getSync "install" "app1-prod1-%!s(<nil>)" [],
       Effect.apply (newInstall "app1-prod1-%!s(<nil>)" "myproj" "app1" Value.null "prod1"),
       Effect.push (newInstall "app1-prod1-%!s(<nil>)" "myproj" "app1" Value.null "prod1")] := by
  refine ⟨?_, ?_, ?_, ?_, ?_, ?_, ?_, ?_, ?_, ?_⟩ <;> rfl

/-! ## `get` swallows the other backend errors -/

/-- C21. What `get` does with the answer of the backend, for every kind, name and
selector list for which it reaches the backend.  It returns a non-nil error exactly
when the name is non-empty and either the answer has no error and zero rows or its
error carries the code `ResourceNotFoundException`; that error is an
`ErrResourceNotFound`.  In every other case, a throttled, refused or broken request and
a missing table or empty scan under the empty name included, `get` returns a nil error
with the rows that were decoded, and `GetSync` returns the same: an empty list and a
nil error when nothing was decoded.  The deployment case then takes such a failed
lookup for an absent release and applies a new one. -/
theorem get_swallows_errors (p : DynamoResourceDB) (backend : Query → Response)
    (resource name : String) (selectors : List String) (q : Query)
    (hq : getQuery p resource name selectors = some q) :
    (∀ r, get p backend resource name selectors = some r →
      (r.err ≠ none ↔
        name ≠ "" ∧
          (((backend q).err = none ∧ (backend q).rows = []) ∨
            ∃ message, (backend q).err =
              some (BackendError.awserr ErrCodeResourceNotFoundException message))) ∧
      (∀ e, r.err = some e → ∃ msg, e = GoError.resourceNotFound msg)) ∧
    ((¬ (name ≠ "" ∧
          (((backend q).err = none ∧ (backend q).rows = []) ∨
            ∃ message, (backend q).err =
              some (BackendError.awserr ErrCodeResourceNotFoundException message)))) →
      get p backend resource name selectors =
        some { resources := (backend q).rows, err := none } ∧
      GetSync p backend resource name selectors =
        some { resources := (backend q).rows, err := none } ∧
      ((backend q).rows = [] →
        GetSync p backend resource name selectors = some { resources := [], err := none })) ∧
    (∀ (σ : Type) (store : σ → Query → Response)
        (applyImpl : σ → Resource → Option GoError × σ) (g : Gateway) (w : World σ)
        (d : Resource) (proj app : String) (failure : BackendError),
      d.Spec.get "project" = Value.str proj → d.Spec.get "app" = Value.str app →
      hasKey g.targetedProjects proj = true → hasKey g.targetedApps app = true →
      store w.db (Query.get (p.tableNameForResourceNamed "release") HashKeyName
          (d.NameHashKey ++ "-" ++ g.clusterName) none) =
        { rows := [], err := some failure } →
      (∀ message, failure ≠ BackendError.awserr ErrCodeResourceNotFoundException message) →
      (deployCase g (storeOver p store applyImpl) w d).world.trace =
        w.trace ++
          [Effect.getSync "release" (d.NameHashKey ++ "-" ++ g.clusterName) [],
           Effect.apply (newRelease (d.NameHashKey ++ "-" ++ g.clusterName) proj app
             (d.Spec.get "sha1") g.clusterName)]) := by
  have hget : get p backend resource name selectors =
      some (getReturn p resource name (backend q)) := by
    simp [get, hq]
  have hcases : (name ≠ "" ∧
        (((backend q).err = none ∧ (backend q).rows = []) ∨
          ∃ message, (backend q).err =
            some (BackendError.awserr ErrCodeResourceNotFoundException message)) ∧
        ∃ msg, getReturn p resource name (backend q) =
          { resources := [], err := some (GoError.resourceNotFound msg) }) ∨
      (¬ (name ≠ "" ∧
          (((backend q).err = none ∧ (backend q).rows = []) ∨
            ∃ message, (backend q).err =
              some (BackendError.awserr ErrCodeResourceNotFoundException message))) ∧
        getReturn p resource name (backend q) =
          { resources := (backend q).rows, err := none }) := by
    by_cases hname : name = ""
    · right
      refine ⟨fun h => h.1 hname, ?_⟩
      unfold getReturn
      simp only [hname, ne_eq, not_true_eq_false, if_false]
      split
      · rfl
      · split
        · split <;> rfl
        · rfl
    · cases herr : (backend q).err with
      | none =>
        by_cases hrows : (backend q).rows = []
        · left
          refine ⟨hname, Or.inl ⟨rfl, hrows⟩, msgItemNotFound p resource name, ?_⟩
          simp [getReturn, herr, hrows, hname]
        · right
          refine ⟨?_, ?_⟩
          · rintro ⟨-, ⟨-, h⟩ | ⟨m, h⟩⟩
            · exact hrows h
            · cases h
          · simp [getReturn, herr, hrows]
      | some be =>
        cases be with
        | plain message =>
          right
          refine ⟨?_, ?_⟩
          · rintro ⟨-, ⟨h, -⟩ | ⟨m, h⟩⟩
            · cases h
            · cases h
          · simp [getReturn, herr]
        | awserr code message =>
          by_cases hcode : code = ErrCodeResourceNotFoundException
          · left
            refine ⟨hname, Or.inr ⟨message, by rw [hcode]⟩, msgTableNotFound p resource name, ?_⟩
            simp [getReturn, herr, hcode, hname]
          · right
            refine ⟨?_, ?_⟩
            · rintro ⟨-, ⟨h, -⟩ | ⟨m, h⟩⟩
              · cases h
              · simp only [Option.some.injEq, BackendError.awserr.injEq] at h
                exact hcode h.1
            · simp [getReturn, herr, hcode]
  refine ⟨?_, ?_, ?_⟩
  · intro r hr
    rw [hget] at hr
    simp only [Option.some.injEq] at hr
    subst hr
    rcases hcases with ⟨hname, hcond, msg, hret⟩ | ⟨hnot, hret⟩
    · rw [hret]
      refine ⟨?_, ?_⟩
      · simp only [ne_eq, reduceCtorEq, not_false_eq_true, true_iff]
        exact ⟨hname, hcond⟩
      · intro e he
        simp only [Option.some.injEq] at he
        exact ⟨msg, he.symm⟩
    · rw [hret]
      refine ⟨?_, ?_⟩
      · simp only [ne_eq, not_true_eq_false, false_iff]
        exact hnot
      · intro e he
        cases he
  · intro hnot
    rcases hcases with ⟨hname, hcond, -⟩ | ⟨-, hret⟩
    · exact absurd ⟨hname, hcond⟩ hnot
    · have hg : get p backend resource name selectors =
          some { resources := (backend q).rows, err := none } := by rw [hget, hret]
      have hs : GetSync p backend resource name selectors =
          some { resources := (backend q).rows, err := none } := by simp [GetSync, hg]
      refine ⟨hg, hs, ?_⟩
      intro hrows
      rw [hs, hrows]
  · intro σ store applyImpl g w d proj app failure hproj happ htp hta hresp hfail
    have hq2 : getQuery p "release" (d.NameHashKey ++ "-" ++ g.clusterName) [] =
        some (Query.get (p.tableNameForResourceNamed "release") HashKeyName
          (d.NameHashKey ++ "-" ++ g.clusterName) none) := by
      simp [getQuery, dash_name_ne_empty]
    have hret : getReturn p "release" (d.NameHashKey ++ "-" ++ g.clusterName)
        { rows := [], err := some failure } = { resources := [], err := none } := by
      cases failure with
      | plain message => simp [getReturn]
      | awserr code message =>
        have hcode : code ≠ ErrCodeResourceNotFoundException := by
          intro h
          exact hfail message (by rw [h])
        simp [getReturn, hcode]
    have hG : (storeOver p store applyImpl).GetSync w.db "release"
        (d.NameHashKey ++ "-" ++ g.clusterName) [] =
          some { resources := [], err := none } := by
      simp [storeOver, GetSync, get, hq2, hresp, hret]
    unfold deployCase
    simp only [hproj, happ, Value.asString, htp, hta, hG]
    simp [releaseOutdated, World.record]
    split <;> rfl

theorem get_swallows_errors_witness :
    get exampleDB throttledBackend "release" "app1-prod1" [] =
        some { resources := (throttledBackend
          (Query.get (exampleDB.tableNameForResourceNamed "release") HashKeyName
            "app1-prod1" none)).rows, err := none } ∧
    GetSync exampleDB throttledBackend "release" "app1-prod1" [] =
        some { resources := (throttledBackend
          (Query.get (exampleDB.tableNameForResourceNamed "release") HashKeyName
            "app1-prod1" none)).rows, err := none } ∧
    ((throttledBackend
        (Query.get (exampleDB.tableNameForResourceNamed "release") HashKeyName
          "app1-prod1" none)).rows = [] →
      GetSync exampleDB throttledBackend "release" "app1-prod1" [] =
        some { resources := [], err := none }) :=
  (get_swallows_errors exampleDB throttledBackend "release" "app1-prod1" []
    (Query.get (exampleDB.tableNameForResourceNamed "release") HashKeyName "app1-prod1" none)
    rfl).2.1 (by
      rintro ⟨-, ⟨h, -⟩ | ⟨m, h⟩⟩
      · cases h
      · have hcode : ErrCodeProvisionedThroughputExceededException =
            ErrCodeResourceNotFoundException :=
          congrArg (fun e => match e with
            | some (BackendError.awserr code _) => code
            | _ => "") h
        exact absurd hcode (by decide))

end Division
